import Mathlib

/-!
Verification of the agentes API core: numeric/locale normalization, territorial
hierarchy expansion, the composite "idh" proxy, cache key derivation, the
three-tier cache manager, the fixed-window rate limiter, and the data route
payload shape.

The TypeScript source is embedded shallowly: pure fragments become Lean
functions over `List`/`String`/`ℚ`; the HTTP fetches are replaced by explicit
row parameters; JavaScript `Map` objects are modelled as association lists
built by iterated insertion (so keys are unique, as in a real `Map`); IEEE
doubles are modelled as rationals, with `Option ℚ` marking `NaN`; wall-clock
instants are `Int` epoch milliseconds.
-/

/-- Territorial level enum from the API types ('REGIAO' | 'UF' | 'MUNICIPIO'). -/
inductive TerritoryLevel
  | REGIAO
  | UF
  | MUNICIPIO
deriving DecidableEq

/-- One indicator point: territory/indicator/year triple with its value. -/
structure IndicatorPoint where
  code : String
  name : String
  level : TerritoryLevel
  year : Int
  value : ℚ
deriving DecidableEq

/-- One territory catalog item as returned by fetchTerritories. -/
structure TerritoryItem where
  code : String
  name : String
  level : TerritoryLevel
  parentCode : Option String
deriving DecidableEq

/-! ## JavaScript semantics helpers -/

/-- Lookup in the association-list model of a JS Map (keys unique, so the
first match is the match). -/
def jsMapGet {β : Type} (entries : List (String × β)) (k : String) : Option β :=
  (entries.find? (fun e => e.1 == k)).map (fun e => e.2)

/-- JS Map.prototype.set: overwrite in place when the key exists, else append. -/
def jsMapSet {β : Type} (entries : List (String × β)) (k : String) (v : β) :
    List (String × β) :=
  match entries with
  | [] => [(k, v)]
  | e :: rest => if e.1 = k then (k, v) :: rest else e :: jsMapSet rest k v

/-- JS `new Map(pairs)`: iterated set, so a later pair overwrites an earlier
one with the same key. -/
def jsNewMap {β : Type} (pairs : List (String × β)) : List (String × β) :=
  pairs.foldl (fun m e => jsMapSet m e.1 e.2) []

/-- JS Array.prototype.join(sep). -/
def jsJoin (sep : String) : List String → String
  | [] => ""
  | [x] => x
  | x :: xs => x ++ sep ++ jsJoin sep xs

/-- JS String.prototype.trim on the character list. -/
def jsTrim (l : List Char) : List Char :=
  ((l.dropWhile Char.isWhitespace).reverse.dropWhile Char.isWhitespace).reverse

/-- JS String.prototype.lastIndexOf for a single character; -1 when absent. -/
def lastIndexOf (l : List Char) (c : Char) : Int :=
  match l with
  | [] => -1
  | x :: xs =>
    let r := lastIndexOf xs c
    if r ≥ 0 then r + 1 else if x = c then 0 else -1

/-- JS s.replace(/c/g, ''): remove every occurrence of the character. -/
def removeAll (l : List Char) (c : Char) : List Char :=
  l.filter (fun d => d != c)

/-- JS s.replace(a, b) with single-character string arguments: replace only
the first occurrence. -/
def replaceFirst (l : List Char) (a b : Char) : List Char :=
  match l with
  | [] => []
  | x :: xs => if x = a then b :: xs else x :: replaceFirst xs a b

/-- Decimal digit value of a digit character. -/
def digitVal (c : Char) : ℕ := c.toNat - '0'.toNat

/-- Value of a big-endian digit string. -/
def natOfDigits (l : List Char) : ℕ :=
  l.foldl (fun acc c => 10 * acc + digitVal c) 0

/-- JS Number() restricted to strings of digits, '.', '-' after an optional
leading '-' has been taken off: digits with at most one dot and at least one
digit; `none` models NaN. The value intPart.fracPart is assembled with mkRat
over natural arithmetic. -/
def jsNumberOfDigitsDot (l : List Char) : Option ℚ :=
  let intPart := l.takeWhile Char.isDigit
  let rest := l.dropWhile Char.isDigit
  match rest with
  | [] => if intPart = [] then none else some (mkRat (natOfDigits intPart) 1)
  | c :: fracPart =>
    if c = '.' ∧ fracPart.all Char.isDigit ∧ (intPart ≠ [] ∨ fracPart ≠ []) then
      let den : ℕ := 10 ^ fracPart.length
      let num : ℕ := natOfDigits intPart * den + natOfDigits fracPart
      some (mkRat num den)
    else none

/-- JS Number() on a string containing only digits, '.', '-' (the only
characters surviving toNumericValue's final cleanup): Number('') = 0, an
optional single leading '-' negates, anything else malformed is NaN. -/
def jsNumber (l : List Char) : Option ℚ :=
  match l with
  | [] => some 0
  | c :: rest =>
    if c = '-' then (jsNumberOfDigitsDot rest).map (fun q => -q)
    else jsNumberOfDigitsDot (c :: rest)

/-! ## toNumericValue (part_009 lines 564-584) -/

/-- toNumericValue: locale-tolerant numeric parser. If both separators occur,
the one occurring last is the decimal separator; a lone ',' is decimal; else
'.' is decimal and commas are stripped; then every character other than
digits, '.', '-' is stripped and the result is fed to Number(). `none`
models NaN. -/
def toNumericValue (raw : String) : Option ℚ :=
  let text := jsTrim raw.toList
  if text = [] then none
  else
    let normalized :=
      if text.contains ',' ∧ text.contains '.' then
        if lastIndexOf text ',' > lastIndexOf text '.' then
          replaceFirst (removeAll text '.') ',' '.'
        else removeAll text ','
      else if text.contains ',' then
        replaceFirst (removeAll text '.') ',' '.'
      else removeAll text ','
    jsNumber (normalized.filter (fun c => c.isDigit || c == '.' || c == '-'))

/-! ## fetchAggregateSeries (part_009 lines 586-631) -/

/-- One row of the upstream aggregates payload:
payload[0].resultados[0].series[i], with its localidade and serie record. -/
structure SeriesRow where
  localidadeId : String
  localidadeNome : String
  serie : List (String × String)
deriving DecidableEq

/-- Raw value selection: row.serie[String(year)] ?? Object.values(row.serie)[0]
?? '0'. -/
def rawSerieValue (serie : List (String × String)) (year : Int) : String :=
  match serie.find? (fun e => e.1 == toString year) with
  | some e => e.2
  | none =>
    match serie.head? with
    | some e => e.2
    | none => "0"

/-- Pure core of fetchAggregateSeries: the HTTP fetch is replaced by the rows
parameter. Each row is parsed with toNumericValue; rows whose value is NaN
(`none`, removed by the Number.isFinite filter) are dropped; at municipality
level with a state-prefix code (truthy, length at most 2) the rows are
filtered by code prefix. -/
def fetchAggregateSeries (level : TerritoryLevel) (year : Int) (code : Option String)
    (rows : List SeriesRow) : List IndicatorPoint :=
  let parsed := rows.filterMap (fun row =>
    match toNumericValue (rawSerieValue row.serie year) with
    | some v => some { code := row.localidadeId, name := row.localidadeNome,
                       level := level, year := year, value := v }
    | none => none)
  match code with
  | some c =>
    if level = TerritoryLevel.MUNICIPIO ∧ c ≠ "" ∧ c.length ≤ 2 then
      parsed.filter (fun row => c.toList.isPrefixOf row.code.toList)
    else parsed
  | none => parsed

/-! ## Hierarchy expansion (part_009 lines 650-673 and 706-734) -/

/-- JS code.slice(0, 2). -/
def sliceTwo (code : String) : String := String.mk (code.toList.take 2)

/-- expandUfPointsToMunicipios: each municipality maps to its state ancestor's
value via parentCode (falling back to the two-character code prefix); the
municipality catalog fetch is replaced by the municipios parameter. -/
def expandUfPointsToMunicipios (ufPoints : List IndicatorPoint) (year : Int)
    (municipios : List TerritoryItem) : List IndicatorPoint :=
  let ufMap := jsNewMap (ufPoints.map (fun item => (item.code, item)))
  municipios.filterMap (fun municipio =>
    let ufCode := municipio.parentCode.getD (sliceTwo municipio.code)
    match jsMapGet ufMap ufCode with
    | none => none
    | some ufRow => some { code := municipio.code, name := municipio.name,
                           level := TerritoryLevel.MUNICIPIO, year := year,
                           value := ufRow.value })

/-- expandRegiaoPointsToMunicipios: municipality → state (parentCode or prefix)
→ region (uf.parentCode ?? '', with the falsy empty string dropping the row)
→ region value; the two catalog fetches are replaced by parameters. -/
def expandRegiaoPointsToMunicipios (regiaoPoints : List IndicatorPoint) (year : Int)
    (ufs : List TerritoryItem) (municipios : List TerritoryItem) : List IndicatorPoint :=
  let regiaoMap := jsNewMap (regiaoPoints.map (fun item => (item.code, item)))
  let ufToRegiao := jsNewMap (ufs.map (fun uf => (uf.code, uf.parentCode.getD "")))
  municipios.filterMap (fun municipio =>
    let ufCode := municipio.parentCode.getD (sliceTwo municipio.code)
    match jsMapGet ufToRegiao ufCode with
    | none => none
    | some regiaoCode =>
      if regiaoCode = "" then none
      else
        match jsMapGet regiaoMap regiaoCode with
        | none => none
        | some regiaoRow =>
          some { code := municipio.code, name := municipio.name,
                 level := TerritoryLevel.MUNICIPIO, year := year,
                 value := regiaoRow.value })

/-! ## fetchIdhProxy (part_009 lines 859-917) -/

/-- JS Math.min on two numbers. -/
def jsMin (a b : ℚ) : ℚ := if a ≤ b then a else b

/-- JS Math.max on two numbers. -/
def jsMax (a b : ℚ) : ℚ := if a ≤ b then b else a

/-- clampNumeric (part_009 lines 633-635): Math.min(max, Math.max(min, value)). -/
def clampNumeric (value lo hi : ℚ) : ℚ := jsMin hi (jsMax lo value)

/-- JS Math.min(...list) guarded by a length check (0 for the empty list). -/
def listMinQ (l : List ℚ) : ℚ :=
  match l with
  | [] => 0
  | x :: xs => xs.foldl jsMin x

/-- JS Math.max(...list) guarded by a length check (0 for the empty list). -/
def listMaxQ (l : List ℚ) : ℚ :=
  match l with
  | [] => 0
  | x :: xs => xs.foldl jsMax x

/-- fetchIdhProxy composition step: the three component fetches (literacy 2010,
income per capita derived from GDP 2023 and population 2022, life expectancy
2014 expanded from states at municipality level) are replaced by the row
parameters. The Number.isFinite filter on income values is the identity in
the rational model. -/
def fetchIdhProxy (literacyRows incomeRows lifeRows : List IndicatorPoint) :
    List IndicatorPoint :=
  let literacyMap := jsNewMap (literacyRows.map (fun item => (item.code, item)))
  let lifeMap := jsNewMap (lifeRows.map (fun item => (item.code, item)))
  let incomeValues := incomeRows.map (fun item => item.value)
  let minIncome := if incomeValues.length ≠ 0 then listMinQ incomeValues else 0
  let maxIncome := if incomeValues.length ≠ 0 then listMaxQ incomeValues else 1
  let incomeSpan := maxIncome - minIncome
  incomeRows.filterMap (fun income =>
    match jsMapGet literacyMap income.code, jsMapGet lifeMap income.code with
    | some literacy, some life =>
      let educationDim := clampNumeric (literacy.value / 100) 0 1
      let incomeDim :=
        if 0 < incomeSpan then clampNumeric ((income.value - minIncome) / incomeSpan) 0 1
        else mkRat 1 2
      let longevityDim := clampNumeric ((life.value - 50) / 35) 0 1
      some { code := income.code, name := income.name, level := income.level,
             year := 2022, value := (educationDim + incomeDim + longevityDim) / 3 }
    | _, _ => none)

/-! ## Cache key derivation (apps/api/src/lib/cache.ts lines 11-18) -/

/-- One cache parameter value: string | number | boolean | undefined. The
numbers used as cache parameters are integers, so String(n) is the decimal
representation. -/
inductive CVal
  | vStr (s : String)
  | vNum (n : Int)
  | vBool (b : Bool)
  | vUndef
deriving DecidableEq

/-- JS String(v ?? ''): undefined falls back to the empty string. -/
def cvalToString : CVal → String
  | .vStr s => s
  | .vNum n => toString n
  | .vBool b => if b then "true" else "false"
  | .vUndef => ""

/-- String(params[key] ?? '') for a key of the parameter bag. -/
def paramValueString (params : List (String × CVal)) (k : String) : String :=
  match params.find? (fun e => e.1 == k) with
  | some e => cvalToString e.2
  | none => ""

/-- Lexicographic order on character lists by code unit, as used by the
default Array.prototype.sort() comparison of strings. -/
def charListLe : List Char → List Char → Bool
  | [], _ => true
  | _ :: _, [] => false
  | a :: as, b :: bs =>
    if a = b then charListLe as bs else decide (a.toNat < b.toNat)

/-- Boolean form of the string order used by Array.prototype.sort(). -/
def strLeB (a b : String) : Bool := charListLe a.toList b.toList

/-- Insert an element into a sorted list, before the first element it is
le-below; inserting before the first equal element keeps the sort stable. -/
def insertSorted {α : Type} (le : α → α → Bool) (x : α) : List α → List α
  | [] => [x]
  | y :: ys => if le x y then x :: y :: ys else y :: insertSorted le x ys

/-- Model of Array.prototype.sort(comparator): a stable, comparator-consistent
sort (insertion sort; ECMAScript leaves the algorithm unspecified but
requires stability, and for a total comparator the result is unique up to
ties). -/
def jsSort {α : Type} (le : α → α → Bool) : List α → List α
  | [] => []
  | x :: xs => insertSorted le x (jsSort le xs)

/-- cacheKeyFrom: namespace :: sorted k:v segments joined by a pipe. -/
def cacheKeyFrom (ns : String) (params : List (String × CVal)) : String :=
  let sorted := (jsSort strLeB (params.map Prod.fst)).map
    (fun k => k ++ ":" ++ paramValueString params k)
  ns ++ "::" ++ jsJoin "|" sorted

/-! ## Cache tiers (apps/api/src/lib/cache.ts lines 20-195)

Payloads are modelled by their canonical JSON serialization (the bytes of
JSON.stringify), on which the parse/stringify round trips performed by the
edge cache, the KV tier and jsonResponse are the identity. A falsy or
unparseable stored value is modelled by the empty string. The params column
written alongside the payload is write-only metadata and is omitted. -/

/-- One row of the cache_requests table. expires_at is a valid timestamp
(epoch milliseconds), so the Number.isFinite guard on the read path holds. -/
structure PgRow where
  key : String
  payload : String
  expiresAt : Int
deriving DecidableEq

/-- parseStoredPayload: null/falsy or unparseable rows yield none; stored
canonical bytes come back unchanged. -/
def parseStoredPayload (raw : String) : Option String :=
  if raw = "" then none else some raw

/-- readFromPostgres: none when no database is configured, the key has no row,
the row is expired (expiresAt ≤ now), or the payload does not parse. -/
def readFromPostgres (table : Option (List PgRow)) (key : String) (now : Int) :
    Option String :=
  match table with
  | none => none
  | some rows =>
    match rows.find? (fun r => r.key == key) with
    | none => none
    | some row =>
      if row.expiresAt ≤ now then none else parseStoredPayload row.payload

/-- INSERT ... ON CONFLICT (key) DO UPDATE: upsert by key. -/
def pgUpsert (rows : List PgRow) (key payload : String) (expiresAt : Int) :
    List PgRow :=
  match rows with
  | [] => [{ key := key, payload := payload, expiresAt := expiresAt }]
  | r :: rest =>
    if r.key = key then { key := key, payload := payload, expiresAt := expiresAt } :: rest
    else r :: pgUpsert rest key payload expiresAt

/-- writeToPostgres: no-op without a database; expiry = now + ttl seconds. -/
def writeToPostgres (table : Option (List PgRow)) (key payload : String)
    (ttlSeconds now : Int) : Option (List PgRow) :=
  table.map (fun rows => pgUpsert rows key payload (now + ttlSeconds * 1000))

/-- cacheRequest: the synthetic edge-cache URL for a key (encodeURIComponent
is injective and omitted from the model). -/
def cacheRequestUrl (key : String) : String :=
  "https://cache.ibge-map.local/" ++ key

/-- The three cache tiers: edge cache (may not exist), KV store (may be
unconfigured), relational table (may lack a database URL). `none` means the
tier is unavailable. -/
structure Tiers where
  edge : Option (List (String × String))
  kv : Option (List (String × String))
  pg : Option (List PgRow)
deriving DecidableEq

/-- Result of one cachedJson call: response body bytes, x-cache-status
(hit = true), tier state after all waitUntil background work, and how many
times the producer ran. -/
structure CacheResult where
  body : String
  hit : Bool
  tiers : Tiers
  producerCalls : Nat
deriving DecidableEq

/-- cachedJson as a state transformer over the tiers: probe edge, then KV
(with its truthiness guard on the parsed hit), then the relational read; on a
slower-tier hit backfill the faster tiers; on a full miss run the producer
once and write all three tiers. The waitUntil background writes are applied
to the returned state (the model assumes they complete before the next
call). The effective TTL collapse (ttlSeconds ?? env default) is resolved to
the ttlSeconds parameter. -/
def cachedJson (t : Tiers) (now : Int) (ns : String) (params : List (String × CVal))
    (ttlSeconds : Int) (producer : String) : CacheResult :=
  let key := cacheKeyFrom ns params
  let url := cacheRequestUrl key
  match t.edge.bind (fun m => jsMapGet m url) with
  | some body => { body := body, hit := true, tiers := t, producerCalls := 0 }
  | none =>
    match (t.kv.bind (fun m => jsMapGet m key)).filter (fun body => body != "") with
    | some body =>
      { body := body, hit := true,
        tiers := { t with edge := t.edge.map (fun m => jsMapSet m url body) },
        producerCalls := 0 }
    | none =>
      match readFromPostgres t.pg key now with
      | some body =>
        { body := body, hit := true,
          tiers := { t with edge := t.edge.map (fun m => jsMapSet m url body),
                            kv := t.kv.map (fun m => jsMapSet m key body) },
          producerCalls := 0 }
      | none =>
        let body := producer
        { body := body, hit := false,
          tiers := { edge := t.edge.map (fun m => jsMapSet m url body),
                     kv := t.kv.map (fun m => jsMapSet m key body),
                     pg := writeToPostgres t.pg key body ttlSeconds now },
          producerCalls := 1 }

/-! ## Rate limiter (part_007 lines 5-40) -/

/-- One fixed-window bucket. -/
structure BucketState where
  count : Nat
  resetAt : Int
deriving DecidableEq

/-- Outcome of the middleware for one request. -/
inductive RateOutcome
  | proceed
  | rateLimited (status : Nat) (code : String)
deriving DecidableEq

/-- rateLimitMiddleware body for one request: reset the bucket to count 1 when
absent or past its window, reject with 429 RATE_LIMITED at or above the
limit, otherwise increment and proceed. -/
def rateLimitStep (buckets : List (String × BucketState)) (limit : Nat) (now : Int)
    (key : String) : RateOutcome × List (String × BucketState) :=
  match jsMapGet buckets key with
  | none =>
    (RateOutcome.proceed, jsMapSet buckets key { count := 1, resetAt := now + 60000 })
  | some bucket =>
    if bucket.resetAt < now then
      (RateOutcome.proceed, jsMapSet buckets key { count := 1, resetAt := now + 60000 })
    else if bucket.count ≥ limit then
      (RateOutcome.rateLimited 429 "RATE_LIMITED", buckets)
    else
      (RateOutcome.proceed,
        jsMapSet buckets key { count := bucket.count + 1, resetAt := bucket.resetAt })

/-- Run n consecutive requests from the same client key at the same instant,
counting how many proceed. -/
def runRateLimit : Nat → List (String × BucketState) → Nat → Int → String →
    Nat × List (String × BucketState)
  | 0, buckets, _, _, _ => (0, buckets)
  | n + 1, buckets, limit, now, key =>
    let step := rateLimitStep buckets limit now key
    let rest := runRateLimit n step.2 limit now key
    ((if step.1 = RateOutcome.proceed then 1 else 0) + rest.1, rest.2)

/-! ## Data route payload (apps/api/src/routes/data.ts lines 59-86) -/

/-- Substring containment, as JS String.prototype.includes. -/
def strIncludes (hay sub : List Char) : Bool :=
  match hay with
  | [] => sub.isEmpty
  | c :: t => sub.isPrefixOf (c :: t) || strIncludes t sub

/-- JS String.prototype.toLowerCase (character-wise; the territory names used
here are plain text). -/
def jsToLower (s : String) : String := String.mk (s.toList.map Char.toLower)

/-- The name-search filter: search?.trim().toLowerCase(), with the falsy
(empty) normalized search leaving the points unfiltered. -/
def dataFiltered (points : List IndicatorPoint) (search : Option String) :
    List IndicatorPoint :=
  match search.map (fun s => jsToLower (String.mk (jsTrim s.toList))) with
  | none => points
  | some s =>
    if s = "" then points
    else points.filter (fun point => strIncludes (jsToLower point.name).toList s.toList)

/-- [...filtered].sort((a, b) => b.value - a.value): stable descending sort by
value. -/
def sortByValueDesc (l : List IndicatorPoint) : List IndicatorPoint :=
  jsSort (fun a b => decide (b.value ≤ a.value)) l

/-- The stats envelope of a /api/data response. -/
structure DataStats where
  min : ℚ
  max : ℚ
  average : ℚ
  total : ℚ
deriving DecidableEq

/-- A /api/data success payload (producer result). -/
structure DataPayload where
  indicator : String
  level : TerritoryLevel
  code : Option String
  year : Int
  count : Nat
  stats : DataStats
  items : List IndicatorPoint
deriving DecidableEq

/-- The producer body of the data route: filter by name search, sort by value
descending, truncate to limit for items, and compute count and stats over the
whole filtered set (zeros when it is empty). The fetchIndicatorData call is
replaced by the points parameter. -/
def buildDataPayload (indicator : String) (level : TerritoryLevel) (code : Option String)
    (year : Int) (points : List IndicatorPoint) (search : Option String)
    (limit : Nat) : DataPayload :=
  let filtered := dataFiltered points search
  let sorted := sortByValueDesc filtered
  let top := sorted.take limit
  let totalValue := (filtered.map (fun row => row.value)).foldl (fun a b => a + b) 0
  { indicator := indicator, level := level, code := code, year := year,
    count := filtered.length,
    stats := { min := if filtered.length ≠ 0 then listMinQ (filtered.map (fun row => row.value)) else 0,
               max := if filtered.length ≠ 0 then listMaxQ (filtered.map (fun row => row.value)) else 0,
               average := if filtered.length ≠ 0 then totalValue / filtered.length else 0,
               total := totalValue },
    items := top }

/-! ## Decimal representations under a separator convention

Modelled from the spec: the claim quantifies over strings representing a
decimal value under one of the two separator conventions (',' decimal with
'.' thousands, or the reverse, or no grouping). These definitions render such
representations and give their value, independently of the code. -/

/-- Digit groups joined by a thousands separator. -/
def joinSep : List (List Char) → Char → List Char
  | [], _ => []
  | [g], _ => g
  | g :: gs, c => g ++ c :: joinSep gs c

/-- Modelled from the spec: a valid integer-part grouping — one ungrouped
nonempty digit run, or several groups with one to three leading digits and
exactly three digits in every later group. -/
def groupsValidB : List (List Char) → Bool
  | [] => false
  | [g] => decide (1 ≤ g.length) && g.all Char.isDigit
  | g :: gs =>
    decide (1 ≤ g.length) && decide (g.length ≤ 3) && g.all Char.isDigit &&
      gs.all (fun h => decide (h.length = 3) && h.all Char.isDigit)

/-- Modelled from the spec: the rendering of a decimal value — optional minus
sign, grouped integer digits joined by the thousands separator, and a decimal
part introduced by the decimal separator when the fraction is nonempty. -/
def renderGrouped (neg : Bool) (groups : List (List Char)) (frac : List Char)
    (thou dec : Char) : List Char :=
  (if neg then ['-'] else []) ++ joinSep groups thou ++
    (if frac = [] then [] else dec :: frac)

/-- The decimal value represented by a grouped rendering. -/
def groupedValue (neg : Bool) (groups : List (List Char)) (frac : List Char) : ℚ :=
  let den : ℕ := 10 ^ frac.length
  let num : ℕ := natOfDigits groups.flatten * den + natOfDigits frac
  if neg then -(mkRat num den) else mkRat num den

/-! ## Order and sorting lemmas -/

lemma char_toNat_inj {a b : Char} (h : a.toNat = b.toNat) : a = b := by
  have hv : a.val = b.val := by
    simp only [Char.toNat] at h
    exact UInt32.toNat.inj h
  exact Char.ext hv

lemma charListLe_total : ∀ as bs : List Char,
    charListLe as bs = true ∨ charListLe bs as = true
  | [], _ => Or.inl rfl
  | _ :: _, [] => Or.inr rfl
  | a :: as, b :: bs => by
    by_cases hab : a = b
    · subst hab
      simpa [charListLe] using charListLe_total as bs
    · have hne : a.toNat ≠ b.toNat := fun h => hab (char_toNat_inj h)
      have hba : b ≠ a := fun e => hab e.symm
      rcases Nat.lt_or_ge a.toNat b.toNat with h | h
      · left
        simp [charListLe, hab, h]
      · have hlt : b.toNat < a.toNat := Nat.lt_of_le_of_ne h (fun e => hne e.symm)
        right
        simp [charListLe, hba, hlt]

lemma charListLe_trans : ∀ as bs cs : List Char,
    charListLe as bs = true → charListLe bs cs = true → charListLe as cs = true
  | [], _, _ => by simp [charListLe]
  | a :: as, [], cs => by simp [charListLe]
  | a :: as, b :: bs, [] => by simp [charListLe]
  | a :: as, b :: bs, c :: cs => by
    intro h1 h2
    by_cases hab : a = b
    · subst hab
      by_cases hac : a = c
      · subst hac
        simp only [charListLe, if_pos rfl] at h1 h2 ⊢
        exact charListLe_trans as bs cs h1 h2
      · simp only [charListLe, if_pos rfl] at h1
        simpa [charListLe, hac] using h2
    · by_cases hbc : b = c
      · subst hbc
        simpa [charListLe, hab] using h1
      · simp only [charListLe, if_neg hab] at h1
        simp only [charListLe, if_neg hbc] at h2
        have hlt : a.toNat < c.toNat :=
          Nat.lt_trans (by simpa using h1) (by simpa using h2)
        by_cases hac : a = c
        · subst hac
          omega
        · simp [charListLe, hac, hlt]

lemma charListLe_antisymm : ∀ as bs : List Char,
    charListLe as bs = true → charListLe bs as = true → as = bs
  | [], [] => by intro _ _; rfl
  | [], _ :: _ => by simp [charListLe]
  | _ :: _, [] => by simp [charListLe]
  | a :: as, b :: bs => by
    intro h1 h2
    by_cases hab : a = b
    · subst hab
      simp only [charListLe, if_pos rfl] at h1 h2
      rw [charListLe_antisymm as bs h1 h2]
    · have hba : b ≠ a := fun e => hab e.symm
      simp only [charListLe, if_neg hab, decide_eq_true_eq] at h1
      simp only [charListLe, if_neg hba, decide_eq_true_eq] at h2
      omega

lemma strLeB_total (a b : String) : strLeB a b = true ∨ strLeB b a = true :=
  charListLe_total a.toList b.toList

lemma strLeB_trans (a b c : String) :
    strLeB a b = true → strLeB b c = true → strLeB a c = true :=
  charListLe_trans a.toList b.toList c.toList

lemma strLeB_antisymm (a b : String) :
    strLeB a b = true → strLeB b a = true → a = b := by
  intro h1 h2
  exact String.ext (charListLe_antisymm a.toList b.toList h1 h2)

lemma insertSorted_perm {α : Type} (le : α → α → Bool) (x : α) :
    ∀ l : List α, (insertSorted le x l).Perm (x :: l)
  | [] => List.Perm.refl _
  | y :: ys => by
    simp only [insertSorted]
    split
    · exact List.Perm.refl _
    · exact ((insertSorted_perm le x ys).cons y).trans (List.Perm.swap x y ys)

lemma jsSort_perm {α : Type} (le : α → α → Bool) :
    ∀ l : List α, (jsSort le l).Perm l
  | [] => List.Perm.refl _
  | x :: xs => (insertSorted_perm le x _).trans ((jsSort_perm le xs).cons x)

lemma insertSorted_pairwise {α : Type} {le : α → α → Bool}
    (htot : ∀ a b, le a b = true ∨ le b a = true)
    (htrans : ∀ a b c, le a b = true → le b c = true → le a c = true) (x : α) :
    ∀ {l : List α}, l.Pairwise (fun a b => le a b = true) →
      (insertSorted le x l).Pairwise (fun a b => le a b = true)
  | [], _ => by simp [insertSorted]
  | y :: ys, h => by
    rcases List.pairwise_cons.mp h with ⟨hy, hys⟩
    simp only [insertSorted]
    split
    case isTrue hxy =>
      refine List.pairwise_cons.mpr ⟨?_, h⟩
      intro z hz
      rcases List.mem_cons.mp hz with rfl | hz'
      · exact hxy
      · exact htrans x y z hxy (hy z hz')
    case isFalse hxy =>
      have hyx : le y x = true := (htot x y).resolve_left (by simpa using hxy)
      refine List.pairwise_cons.mpr ⟨?_, insertSorted_pairwise htot htrans x hys⟩
      intro z hz
      have hz2 : z ∈ x :: ys := (insertSorted_perm le x ys).mem_iff.mp hz
      rcases List.mem_cons.mp hz2 with rfl | hz'
      · exact hyx
      · exact hy z hz'

lemma jsSort_pairwise {α : Type} {le : α → α → Bool}
    (htot : ∀ a b, le a b = true ∨ le b a = true)
    (htrans : ∀ a b c, le a b = true → le b c = true → le a c = true) :
    ∀ l : List α, (jsSort le l).Pairwise (fun a b => le a b = true)
  | [] => by simp [jsSort]
  | x :: xs => insertSorted_pairwise htot htrans x (jsSort_pairwise htot htrans xs)

lemma jsSort_eq_of_perm {α : Type} {le : α → α → Bool}
    (htot : ∀ a b, le a b = true ∨ le b a = true)
    (htrans : ∀ a b c, le a b = true → le b c = true → le a c = true)
    (hanti : ∀ a b, le a b = true → le b a = true → a = b)
    {l1 l2 : List α} (h : l1.Perm l2) : jsSort le l1 = jsSort le l2 := by
  haveI : IsAntisymm α (fun a b : α => le a b = true) := ⟨hanti⟩
  exact List.eq_of_perm_of_sorted
    ((jsSort_perm le l1).trans (h.trans (jsSort_perm le l2).symm))
    (jsSort_pairwise htot htrans l1) (jsSort_pairwise htot htrans l2)

lemma find?_perm_of_nodup_keys {β : Type} {l1 l2 : List (String × β)}
    (h : l1.Perm l2) (k : String) : (l1.map Prod.fst).Nodup →
    l1.find? (fun e => e.1 == k) = l2.find? (fun e => e.1 == k) := by
  induction h with
  | nil => intro _; rfl
  | cons x p ih =>
    intro hnd
    rw [List.map_cons] at hnd
    have hnd' := hnd.of_cons
    by_cases hb : (x.1 == k) = true
    · rw [@List.find?_cons_of_pos _ (fun e => e.1 == k) x _ hb,
        @List.find?_cons_of_pos _ (fun e => e.1 == k) x _ hb]
    · rw [@List.find?_cons_of_neg _ (fun e => e.1 == k) x _ hb,
        @List.find?_cons_of_neg _ (fun e => e.1 == k) x _ hb, ih hnd']
  | swap x y l =>
    intro hnd
    rw [List.map_cons, List.map_cons] at hnd
    have hxy : y.1 ≠ x.1 := by
      have := (List.nodup_cons.mp hnd).1
      intro e
      exact this (by simp [e])
    by_cases hx : (x.1 == k) = true
    · have hyk : ¬ (y.1 == k) = true := by
        intro hy
        exact hxy ((beq_iff_eq.mp hy).trans (beq_iff_eq.mp hx).symm)
      rw [@List.find?_cons_of_neg _ (fun e => e.1 == k) y _ hyk,
        @List.find?_cons_of_pos _ (fun e => e.1 == k) x _ hx,
        @List.find?_cons_of_pos _ (fun e => e.1 == k) x _ hx]
    · by_cases hy : (y.1 == k) = true
      · rw [@List.find?_cons_of_pos _ (fun e => e.1 == k) y _ hy,
          @List.find?_cons_of_neg _ (fun e => e.1 == k) x _ hx,
          @List.find?_cons_of_pos _ (fun e => e.1 == k) y _ hy]
      · rw [@List.find?_cons_of_neg _ (fun e => e.1 == k) y _ hy,
          @List.find?_cons_of_neg _ (fun e => e.1 == k) x _ hx,
          @List.find?_cons_of_neg _ (fun e => e.1 == k) x _ hx,
          @List.find?_cons_of_neg _ (fun e => e.1 == k) y _ hy]
  | trans p1 p2 ih1 ih2 =>
    intro hnd
    exact (ih1 hnd).trans (ih2 ((p1.map Prod.fst).nodup hnd))

/-- C5: for every namespace and parameter bag, cache key derivation is a pure
function that is order-independent: any permutation of the parameter bag
(whose keys, coming from a JS object, are distinct) yields the identical key
string, so identical logical requests collide on the same key. -/
theorem c5_theorem (ns : String) (p1 p2 : List (String × CVal))
    (hperm : p1.Perm p2) (hnd : (p1.map Prod.fst).Nodup) :
    cacheKeyFrom ns p1 = cacheKeyFrom ns p2 := by
  unfold cacheKeyFrom
  have hkeys : jsSort strLeB (p1.map Prod.fst) = jsSort strLeB (p2.map Prod.fst) :=
    jsSort_eq_of_perm strLeB_total strLeB_trans strLeB_antisymm (hperm.map Prod.fst)
  have hval : ∀ k, paramValueString p1 k = paramValueString p2 k := by
    intro k
    unfold paramValueString
    rw [find?_perm_of_nodup_keys hperm k hnd]
  rw [hkeys, List.map_congr_left (fun k _ => by rw [hval k])]

/-- Witness for C5: the two-parameter bag in both insertion orders produces
the same key. -/
theorem c5_witness :
    ([("b", CVal.vNum 2), ("a", CVal.vStr "x")] : List (String × CVal)).Perm
        [("a", CVal.vStr "x"), ("b", CVal.vNum 2)] ∧
      (([("b", CVal.vNum 2), ("a", CVal.vStr "x")] : List (String × CVal)).map
        Prod.fst).Nodup ∧
      cacheKeyFrom "data" [("b", CVal.vNum 2), ("a", CVal.vStr "x")] =
        cacheKeyFrom "data" [("a", CVal.vStr "x"), ("b", CVal.vNum 2)] :=
  ⟨List.Perm.swap _ _ _, by decide,
    c5_theorem "data" _ _ (List.Perm.swap _ _ _) (by decide)⟩

lemma jsJoin_length : ∀ l : List String, l ≠ [] →
    (jsJoin "|" l).length + 1 = (l.map String.length).sum + l.length
  | [], h => absurd rfl h
  | [x], _ => by simp [jsJoin]
  | x :: y :: ys, _ => by
    have ih := jsJoin_length (y :: ys) (by simp)
    show (x ++ "|" ++ jsJoin "|" (y :: ys)).length + 1 = _
    rw [String.length_append, String.length_append]
    have hpipe : ("|" : String).length = 1 := rfl
    simp only [List.map_cons, List.sum_cons, List.length_cons] at ih ⊢
    omega

/-- C10: cache key derivation serializes an undefined parameter as the empty
string, so binding k to undefined and binding k to the empty string collide
on the identical key, while omitting k entirely produces a different
(strictly shorter) key. -/
theorem c10_theorem (ns : String) (params : List (String × CVal)) (k : String)
    (hk : k ∉ params.map Prod.fst) :
    cacheKeyFrom ns ((k, CVal.vUndef) :: params) =
        cacheKeyFrom ns ((k, CVal.vStr "") :: params) ∧
      cacheKeyFrom ns ((k, CVal.vUndef) :: params) ≠ cacheKeyFrom ns params := by
  constructor
  · have hval : ∀ k', paramValueString ((k, CVal.vUndef) :: params) k' =
        paramValueString ((k, CVal.vStr "") :: params) k' := by
      intro k'
      unfold paramValueString
      by_cases hb : (k == k') = true
      · rw [@List.find?_cons_of_pos _ (fun e => e.1 == k') (k, CVal.vUndef) _ hb,
          @List.find?_cons_of_pos _ (fun e => e.1 == k') (k, CVal.vStr "") _ hb]
        rfl
      · rw [@List.find?_cons_of_neg _ (fun e => e.1 == k') (k, CVal.vUndef) _ hb,
          @List.find?_cons_of_neg _ (fun e => e.1 == k') (k, CVal.vStr "") _ hb]
    unfold cacheKeyFrom
    simp only [List.map_cons]
    rw [List.map_congr_left (fun k' _ => by
      show k' ++ ":" ++ paramValueString ((k, CVal.vUndef) :: params) k' =
        k' ++ ":" ++ paramValueString ((k, CVal.vStr "") :: params) k'
      rw [hval k'])]
  · intro he
    have hlen := congrArg String.length he
    unfold cacheKeyFrom at hlen
    simp only [List.map_cons] at hlen
    rw [String.length_append, String.length_append,
      String.length_append, String.length_append] at hlen
    have hperm1 := jsSort_perm strLeB (k :: params.map Prod.fst)
    have hperm0 := jsSort_perm strLeB (params.map Prod.fst)
    have hvhead : paramValueString ((k, CVal.vUndef) :: params) k = "" := by
      unfold paramValueString
      rw [@List.find?_cons_of_pos _ (fun e => e.1 == k) (k, CVal.vUndef) _ (by simp)]
      rfl
    have hvtail : ∀ k' ∈ params.map Prod.fst,
        paramValueString ((k, CVal.vUndef) :: params) k' = paramValueString params k' := by
      intro k' hk'
      have hne : ¬ (k == k') = true := by
        intro hb
        exact hk (by rw [beq_iff_eq.mp hb]; exact hk')
      unfold paramValueString
      rw [@List.find?_cons_of_neg _ (fun e => e.1 == k') (k, CVal.vUndef) _ hne]
    have htailmap : (params.map Prod.fst).map
        (fun k' => k' ++ ":" ++ paramValueString ((k, CVal.vUndef) :: params) k') =
          (params.map Prod.fst).map
        (fun k' => k' ++ ":" ++ paramValueString params k') :=
      List.map_congr_left (fun k' hk' => by
        show k' ++ ":" ++ paramValueString ((k, CVal.vUndef) :: params) k' =
          k' ++ ":" ++ paramValueString params k'
        rw [hvtail k' hk'])
    have hsum1 : (((jsSort strLeB (k :: params.map Prod.fst)).map
        (fun k' => k' ++ ":" ++ paramValueString ((k, CVal.vUndef) :: params) k')).map
          String.length).sum =
        (k.length + 1) + (((params.map Prod.fst).map
          (fun k' => k' ++ ":" ++ paramValueString params k')).map String.length).sum := by
      rw [((hperm1.map
        (fun k' => k' ++ ":" ++ paramValueString ((k, CVal.vUndef) :: params) k')).map
          String.length).sum_eq]
      simp only [List.map_cons, List.sum_cons]
      rw [htailmap]
      congr 1
      rw [hvhead, String.length_append, String.length_append]
      rfl
    have hsum0 : (((jsSort strLeB (params.map Prod.fst)).map
        (fun k' => k' ++ ":" ++ paramValueString params k')).map String.length).sum =
        (((params.map Prod.fst).map
          (fun k' => k' ++ ":" ++ paramValueString params k')).map String.length).sum :=
      ((hperm0.map (fun k' => k' ++ ":" ++ paramValueString params k')).map
        String.length).sum_eq
    have hlen1 := (hperm1.map (fun k' =>
      k' ++ ":" ++ paramValueString ((k, CVal.vUndef) :: params) k')).length_eq
    have hlen0 := (hperm0.map (fun k' =>
      k' ++ ":" ++ paramValueString params k')).length_eq
    have hJ1 := jsJoin_length ((jsSort strLeB (k :: params.map Prod.fst)).map
        (fun k' => k' ++ ":" ++ paramValueString ((k, CVal.vUndef) :: params) k'))
      (by
        intro hnil
        have := congrArg List.length hnil
        rw [hlen1] at this
        simp at this)
    rw [hsum1, hlen1] at hJ1
    simp only [List.length_map, List.length_cons] at hJ1
    have hcolon : ("::" : String).length = 2 := rfl
    by_cases hkeys : params.map Prod.fst = []
    · have hsorted0 : jsSort strLeB (params.map Prod.fst) = [] := by
        rw [hkeys]
        rfl
      rw [hsorted0] at hlen
      simp only [List.map_nil] at hlen
      rw [hkeys] at hJ1 hlen
      simp only [List.map_nil, List.sum_nil, List.length_nil] at hJ1
      have hJ0 : (jsJoin "|" ([] : List String)).length = 0 := rfl
      omega
    · have hJ0 := jsJoin_length ((jsSort strLeB (params.map Prod.fst)).map
          (fun k' => k' ++ ":" ++ paramValueString params k'))
        (by
          intro hnil
          have := congrArg List.length hnil
          rw [hlen0] at this
          simp only [List.length_map, List.length_nil] at this
          exact hkeys (by rw [List.eq_nil_of_length_eq_zero this]; rfl))
      rw [hsum0, hlen0] at hJ0
      simp only [List.length_map] at hJ0
      omega

/-- Witness for C10: with namespace data and the bag a:x, adding k bound to
undefined collides with k bound to the empty string, and differs from the
bag without k. -/
theorem c10_witness :
    ("k" ∉ ([("a", CVal.vStr "x")] : List (String × CVal)).map Prod.fst) ∧
      (cacheKeyFrom "data" [("k", CVal.vUndef), ("a", CVal.vStr "x")] =
          cacheKeyFrom "data" [("k", CVal.vStr ""), ("a", CVal.vStr "x")] ∧
        cacheKeyFrom "data" [("k", CVal.vUndef), ("a", CVal.vStr "x")] ≠
          cacheKeyFrom "data" [("a", CVal.vStr "x")]) :=
  ⟨by decide, c10_theorem "data" [("a", CVal.vStr "x")] "k" (by decide)⟩

/-- Counterexample for C7: a stored row with expiresAt = 100 read at now = 100
is a miss (the code treats expiresAt ≤ now as expired), although now > expiresAt
is false, so the claim's boundary (a hit at now = expiresAt) does not hold. -/
theorem c7_counterexample :
    readFromPostgres (some [{ key := "data::k", payload := "p", expiresAt := 100 }])
        "data::k" 100 = none ∧
      ¬ ((100 : Int) > 100) := by
  constructor
  · rfl
  · omega

/-- C7 amended: the relational read path returns the stored payload iff the
row exists, is strictly unexpired (now < expiresAt, so at now = expiresAt the
entry is treated as expired, a miss), and the stored payload parses to a
non-null value. -/
theorem c7_amended_theorem (rows : List PgRow) (r : PgRow) (now : Int) (p : String)
    (hfind : rows.find? (fun x => x.key == r.key) = some r) :
    readFromPostgres (some rows) r.key now = some p ↔
      (now < r.expiresAt ∧ parseStoredPayload r.payload = some p) := by
  simp only [readFromPostgres]
  rw [hfind]
  dsimp only
  by_cases h : r.expiresAt ≤ now
  · rw [if_pos h]
    constructor
    · intro hc
      exact absurd hc (by simp)
    · intro hc
      omega
  · rw [if_neg h]
    constructor
    · intro hc
      exact ⟨by omega, hc⟩
    · intro hc
      exact hc.2

/-- Witness for C7 amended: a fresh row read before expiry is a hit with the
stored payload. -/
theorem c7_amended_witness :
    ([({ key := "data::k", payload := "p", expiresAt := 100 } : PgRow)].find?
        (fun x => x.key == ({ key := "data::k", payload := "p", expiresAt := 100 } : PgRow).key) =
          some { key := "data::k", payload := "p", expiresAt := 100 }) ∧
      readFromPostgres (some [{ key := "data::k", payload := "p", expiresAt := 100 }])
        "data::k" 99 = some "p" :=
  ⟨by decide,
    (c7_amended_theorem [{ key := "data::k", payload := "p", expiresAt := 100 }]
      { key := "data::k", payload := "p", expiresAt := 100 } 99 "p" (by decide)).mpr
      ⟨by decide, by decide⟩⟩

lemma rateLimit_steady (limit : Nat) (now : Int) (key : String) :
    ∀ (n c : Nat), 1 ≤ c → c + n ≤ limit →
      runRateLimit n [(key, { count := c, resetAt := now + 60000 })] limit now key =
        (n, [(key, { count := c + n, resetAt := now + 60000 })])
  | 0, c, _, _ => by simp [runRateLimit]
  | n + 1, c, hc, hcn => by
    have hget : jsMapGet [(key, ({ count := c, resetAt := now + 60000 } : BucketState))] key =
        some { count := c, resetAt := now + 60000 } := by
      simp [jsMapGet]
    have hstep : rateLimitStep [(key, { count := c, resetAt := now + 60000 })] limit now key =
        (RateOutcome.proceed, [(key, { count := c + 1, resetAt := now + 60000 })]) := by
      unfold rateLimitStep
      rw [hget]
      dsimp only
      rw [if_neg (by omega : ¬ now + 60000 < now), if_neg (by omega : ¬ c ≥ limit)]
      simp [jsMapSet]
    have hrest := rateLimit_steady limit now key n (c + 1) (by omega) (by omega)
    show (let step := rateLimitStep [(key, { count := c, resetAt := now + 60000 })] limit now key
          let rest := runRateLimit n step.2 limit now key
          ((if step.1 = RateOutcome.proceed then 1 else 0) + rest.1, rest.2)) = _
    rw [hstep]
    dsimp only
    rw [hrest]
    dsimp only
    rw [if_pos rfl]
    have : c + 1 + n = c + (n + 1) := by omega
    rw [this]
    have : (1 : Nat) + n = n + 1 := by omega
    rw [this]

/-- C8: the fixed-window rate limiter admits exactly limit requests inside one
window from one client key starting from an empty bucket map: all limit
requests proceed leaving count = limit, the next request in the same window
fails with 429 RATE_LIMITED and leaves the buckets unchanged, and a request
after the window has passed proceeds with the bucket reset to count 1 and
resetAt sixty seconds after the new instant. -/
theorem c8_theorem (limit : Nat) (now : Int) (key : String) (hpos : 0 < limit) :
    runRateLimit limit [] limit now key =
        (limit, [(key, { count := limit, resetAt := now + 60000 })]) ∧
      rateLimitStep [(key, { count := limit, resetAt := now + 60000 })] limit now key =
        (RateOutcome.rateLimited 429 "RATE_LIMITED",
          [(key, { count := limit, resetAt := now + 60000 })]) ∧
      rateLimitStep [(key, { count := limit, resetAt := now + 60000 })] limit
          (now + 60001) key =
        (RateOutcome.proceed, [(key, { count := 1, resetAt := now + 60001 + 60000 })]) := by
  have hget : ∀ c : Nat,
      jsMapGet [(key, ({ count := c, resetAt := now + 60000 } : BucketState))] key =
        some { count := c, resetAt := now + 60000 } := by
    intro c
    simp [jsMapGet]
  refine ⟨?_, ?_, ?_⟩
  · obtain ⟨m, rfl⟩ : ∃ m, limit = m + 1 := ⟨limit - 1, by omega⟩
    have hstep0 : rateLimitStep [] (m + 1) now key =
        (RateOutcome.proceed, [(key, { count := 1, resetAt := now + 60000 })]) := by
      unfold rateLimitStep
      simp [jsMapGet, jsMapSet]
    have hrest := rateLimit_steady (m + 1) now key m 1 (by omega) (by omega)
    show (let step := rateLimitStep [] (m + 1) now key
          let rest := runRateLimit m step.2 (m + 1) now key
          ((if step.1 = RateOutcome.proceed then 1 else 0) + rest.1, rest.2)) = _
    rw [hstep0]
    dsimp only
    rw [hrest]
    dsimp only
    rw [if_pos rfl]
    have h1 : (1 : Nat) + m = m + 1 := by omega
    rw [h1]
  · unfold rateLimitStep
    rw [hget limit]
    dsimp only
    rw [if_neg (by omega : ¬ now + 60000 < now), if_pos (by omega : limit ≥ limit)]
  · unfold rateLimitStep
    rw [hget limit]
    dsimp only
    rw [if_pos (by omega : now + 60000 < now + 60001)]
    simp [jsMapSet]

/-- Witness for C8: with the default limit of 120 at instant 0, the 120
requests succeed, the 121st is rejected with 429 RATE_LIMITED, and after the
window rolls over the counter resets to 1. -/
theorem c8_witness :
    (0 < 120) ∧
      (runRateLimit 120 [] 120 0 "203.0.113.7" =
          (120, [("203.0.113.7", { count := 120, resetAt := 60000 })]) ∧
        rateLimitStep [("203.0.113.7", { count := 120, resetAt := 60000 })] 120 0
            "203.0.113.7" =
          (RateOutcome.rateLimited 429 "RATE_LIMITED",
            [("203.0.113.7", { count := 120, resetAt := 60000 })]) ∧
        rateLimitStep [("203.0.113.7", { count := 120, resetAt := 60000 })] 120 60001
            "203.0.113.7" =
          (RateOutcome.proceed, [("203.0.113.7", { count := 1, resetAt := 60001 + 60000 })])) :=
  ⟨by decide, by
    have h := c8_theorem 120 0 "203.0.113.7" (by decide)
    simpa using h⟩

/-- C2: hierarchy expansion maps each descendant to its ancestor's value by
looking up the ancestor code via parentCode, falling back to the first two
characters of the descendant's code; every descendant sharing an ancestor
receives the same duplicated value, and a descendant whose ancestor has no
value in the coarse series is absent from the output, not present with value
zero. Stated for both expandUfPointsToMunicipios and (through the two-stage
state-then-region resolution) expandRegiaoPointsToMunicipios. -/
theorem c2_theorem :
    (∀ (ufPoints : List IndicatorPoint) (year : Int) (municipios : List TerritoryItem),
      (∀ p ∈ expandUfPointsToMunicipios ufPoints year municipios,
        ∃ m ∈ municipios, ∃ anc,
          jsMapGet (jsNewMap (ufPoints.map (fun item => (item.code, item))))
              (m.parentCode.getD (sliceTwo m.code)) = some anc ∧
            p = { code := m.code, name := m.name, level := TerritoryLevel.MUNICIPIO,
                  year := year, value := anc.value }) ∧
      (∀ m ∈ municipios, ∀ anc,
        jsMapGet (jsNewMap (ufPoints.map (fun item => (item.code, item))))
            (m.parentCode.getD (sliceTwo m.code)) = some anc →
          ({ code := m.code, name := m.name, level := TerritoryLevel.MUNICIPIO,
             year := year, value := anc.value } : IndicatorPoint) ∈
            expandUfPointsToMunicipios ufPoints year municipios) ∧
      ((municipios.map TerritoryItem.code).Nodup →
        ∀ m ∈ municipios,
          jsMapGet (jsNewMap (ufPoints.map (fun item => (item.code, item))))
              (m.parentCode.getD (sliceTwo m.code)) = none →
            ∀ p ∈ expandUfPointsToMunicipios ufPoints year municipios, p.code ≠ m.code) ∧
      ((municipios.map TerritoryItem.code).Nodup →
        ∀ m1 ∈ municipios, ∀ m2 ∈ municipios,
          m1.parentCode.getD (sliceTwo m1.code) = m2.parentCode.getD (sliceTwo m2.code) →
          ∀ p1 ∈ expandUfPointsToMunicipios ufPoints year municipios,
          ∀ p2 ∈ expandUfPointsToMunicipios ufPoints year municipios,
            p1.code = m1.code → p2.code = m2.code → p1.value = p2.value)) ∧
    (∀ (regiaoPoints : List IndicatorPoint) (year : Int)
        (ufs municipios : List TerritoryItem),
      (∀ p ∈ expandRegiaoPointsToMunicipios regiaoPoints year ufs municipios,
        ∃ m ∈ municipios, ∃ rc anc,
          jsMapGet (jsNewMap (ufs.map (fun uf => (uf.code, uf.parentCode.getD ""))))
              (m.parentCode.getD (sliceTwo m.code)) = some rc ∧ rc ≠ "" ∧
            jsMapGet (jsNewMap (regiaoPoints.map (fun item => (item.code, item)))) rc =
              some anc ∧
            p = { code := m.code, name := m.name, level := TerritoryLevel.MUNICIPIO,
                  year := year, value := anc.value }) ∧
      ((municipios.map TerritoryItem.code).Nodup →
        ∀ m ∈ municipios,
          (¬ ∃ rc anc,
            jsMapGet (jsNewMap (ufs.map (fun uf => (uf.code, uf.parentCode.getD ""))))
                (m.parentCode.getD (sliceTwo m.code)) = some rc ∧ rc ≠ "" ∧
              jsMapGet (jsNewMap (regiaoPoints.map (fun item => (item.code, item)))) rc =
                some anc) →
            ∀ p ∈ expandRegiaoPointsToMunicipios regiaoPoints year ufs municipios,
              p.code ≠ m.code)) := by
  constructor
  · intro ufPoints year municipios
    have hmem : ∀ p ∈ expandUfPointsToMunicipios ufPoints year municipios,
        ∃ m ∈ municipios, ∃ anc,
          jsMapGet (jsNewMap (ufPoints.map (fun item => (item.code, item))))
              (m.parentCode.getD (sliceTwo m.code)) = some anc ∧
            p = { code := m.code, name := m.name, level := TerritoryLevel.MUNICIPIO,
                  year := year, value := anc.value } := by
      intro p hp
      simp only [expandUfPointsToMunicipios, List.mem_filterMap] at hp
      obtain ⟨m, hm, hbody⟩ := hp
      cases hlk : jsMapGet (jsNewMap (ufPoints.map (fun item => (item.code, item))))
          (m.parentCode.getD (sliceTwo m.code)) with
      | none =>
        rw [hlk] at hbody
        exact absurd hbody (by simp)
      | some anc =>
        rw [hlk] at hbody
        refine ⟨m, hm, anc, hlk, ?_⟩
        exact (Option.some.inj hbody).symm
    refine ⟨hmem, ?_, ?_, ?_⟩
    · intro m hm anc hlk
      simp only [expandUfPointsToMunicipios, List.mem_filterMap]
      refine ⟨m, hm, ?_⟩
      rw [hlk]
    · intro hnd m hm hnone p hp
      obtain ⟨m', hm', anc, hlk, hpeq⟩ := hmem p hp
      intro hcode
      have hcodes : m'.code = m.code := by
        rw [hpeq] at hcode
        exact hcode
      have : m' = m := List.inj_on_of_nodup_map hnd hm' hm hcodes
      rw [this] at hlk
      rw [hnone] at hlk
      exact Option.noConfusion hlk
    · intro hnd m1 hm1 m2 hm2 hanc p1 hp1 p2 hp2 hc1 hc2
      obtain ⟨m1', hm1', anc1, hlk1, hpeq1⟩ := hmem p1 hp1
      obtain ⟨m2', hm2', anc2, hlk2, hpeq2⟩ := hmem p2 hp2
      have he1 : m1' = m1 := by
        refine List.inj_on_of_nodup_map hnd hm1' hm1 ?_
        rw [hpeq1] at hc1
        exact hc1
      have he2 : m2' = m2 := by
        refine List.inj_on_of_nodup_map hnd hm2' hm2 ?_
        rw [hpeq2] at hc2
        exact hc2
      rw [he1] at hlk1
      rw [he2] at hlk2
      rw [hanc] at hlk1
      rw [hlk2] at hlk1
      have : anc1 = anc2 := (Option.some.inj hlk1).symm
      rw [hpeq1, hpeq2, this]
  · intro regiaoPoints year ufs municipios
    have hmem : ∀ p ∈ expandRegiaoPointsToMunicipios regiaoPoints year ufs municipios,
        ∃ m ∈ municipios, ∃ rc anc,
          jsMapGet (jsNewMap (ufs.map (fun uf => (uf.code, uf.parentCode.getD ""))))
              (m.parentCode.getD (sliceTwo m.code)) = some rc ∧ rc ≠ "" ∧
            jsMapGet (jsNewMap (regiaoPoints.map (fun item => (item.code, item)))) rc =
              some anc ∧
            p = { code := m.code, name := m.name, level := TerritoryLevel.MUNICIPIO,
                  year := year, value := anc.value } := by
      intro p hp
      simp only [expandRegiaoPointsToMunicipios, List.mem_filterMap] at hp
      obtain ⟨m, hm, hbody⟩ := hp
      cases hlk : jsMapGet (jsNewMap (ufs.map (fun uf => (uf.code, uf.parentCode.getD ""))))
          (m.parentCode.getD (sliceTwo m.code)) with
      | none =>
        rw [hlk] at hbody
        exact absurd hbody (by simp)
      | some rc =>
        rw [hlk] at hbody
        dsimp only at hbody
        by_cases hrc : rc = ""
        · rw [if_pos hrc] at hbody
          exact absurd hbody (by simp)
        · rw [if_neg hrc] at hbody
          cases hlk2 : jsMapGet (jsNewMap (regiaoPoints.map (fun item => (item.code, item)))) rc with
          | none =>
            rw [hlk2] at hbody
            exact absurd hbody (by simp)
          | some anc =>
            rw [hlk2] at hbody
            refine ⟨m, hm, rc, anc, hlk, hrc, hlk2, ?_⟩
            exact (Option.some.inj hbody).symm
    refine ⟨hmem, ?_⟩
    intro hnd m hm hnone p hp
    obtain ⟨m', hm', rc, anc, hlk, hrc, hlk2, hpeq⟩ := hmem p hp
    intro hcode
    have hcodes : m'.code = m.code := by
      rw [hpeq] at hcode
      exact hcode
    have : m' = m := List.inj_on_of_nodup_map hnd hm' hm hcodes
    rw [this] at hlk
    exact hnone ⟨rc, anc, hlk, hrc, hlk2⟩

/-- Witness for C2: the coarse series with ancestors 11 at 10 and 12 at 20,
five descendants split three to two between them, and one descendant with an
unresolvable ancestor: all three descendants of 11 report 10, both
descendants of 12 report 20, and the sixth descendant is absent. -/
theorem c2_witness :
    expandUfPointsToMunicipios
        [{ code := "11", name := "A", level := TerritoryLevel.UF, year := 2021, value := 10 },
         { code := "12", name := "B", level := TerritoryLevel.UF, year := 2021, value := 20 }]
        2021
        [{ code := "1100011", name := "M1", level := TerritoryLevel.MUNICIPIO,
           parentCode := some "11" },
         { code := "1100022", name := "M2", level := TerritoryLevel.MUNICIPIO,
           parentCode := some "11" },
         { code := "1100033", name := "M3", level := TerritoryLevel.MUNICIPIO,
           parentCode := none },
         { code := "1200013", name := "M4", level := TerritoryLevel.MUNICIPIO,
           parentCode := some "12" },
         { code := "1200024", name := "M5", level := TerritoryLevel.MUNICIPIO,
           parentCode := some "12" },
         { code := "9900099", name := "M6", level := TerritoryLevel.MUNICIPIO,
           parentCode := some "99" }] =
      [{ code := "1100011", name := "M1", level := TerritoryLevel.MUNICIPIO,
         year := 2021, value := 10 },
       { code := "1100022", name := "M2", level := TerritoryLevel.MUNICIPIO,
         year := 2021, value := 10 },
       { code := "1100033", name := "M3", level := TerritoryLevel.MUNICIPIO,
         year := 2021, value := 10 },
       { code := "1200013", name := "M4", level := TerritoryLevel.MUNICIPIO,
         year := 2021, value := 20 },
       { code := "1200024", name := "M5", level := TerritoryLevel.MUNICIPIO,
         year := 2021, value := 20 }] ∧
    ({ code := "1100011", name := "M1", level := TerritoryLevel.MUNICIPIO,
       year := 2021, value := 10 } : IndicatorPoint) ∈
      expandUfPointsToMunicipios
        [{ code := "11", name := "A", level := TerritoryLevel.UF, year := 2021, value := 10 },
         { code := "12", name := "B", level := TerritoryLevel.UF, year := 2021, value := 20 }]
        2021
        [{ code := "1100011", name := "M1", level := TerritoryLevel.MUNICIPIO,
           parentCode := some "11" }] :=
  ⟨by decide,
    (c2_theorem.1
        [{ code := "11", name := "A", level := TerritoryLevel.UF, year := 2021, value := 10 },
         { code := "12", name := "B", level := TerritoryLevel.UF, year := 2021, value := 20 }]
        2021
        [{ code := "1100011", name := "M1", level := TerritoryLevel.MUNICIPIO,
           parentCode := some "11" }]).2.1
      { code := "1100011", name := "M1", level := TerritoryLevel.MUNICIPIO,
        parentCode := some "11" }
      (by decide)
      { code := "11", name := "A", level := TerritoryLevel.UF, year := 2021, value := 10 }
      (by decide)⟩

/-- Counterexample for C4: a row whose raw value is the upstream suppression
marker X (which contains no digits and represents no number) is surfaced with
value 0, because every character of X is stripped and Number('') is 0, not
NaN; and a row with an empty serie record is assigned the fabricated raw
value '0' and surfaced as 0. Both contradict the claim that unparseable or
missing upstream values are never surfaced as zero. -/
theorem c4_counterexample :
    fetchAggregateSeries TerritoryLevel.UF 2021 none
        [{ localidadeId := "11", localidadeNome := "A", serie := [("2021", "X")] },
         { localidadeId := "12", localidadeNome := "B", serie := [] }] =
      [{ code := "11", name := "A", level := TerritoryLevel.UF, year := 2021, value := 0 },
       { code := "12", name := "B", level := TerritoryLevel.UF, year := 2021, value := 0 }] ∧
      toNumericValue "X" = some 0 ∧
      ("X".toList.all (fun c => !c.isDigit)) = true ∧
      rawSerieValue [] 2021 = "0" := by
  refine ⟨by decide, by decide, by decide, by decide⟩

/-- C4 amended: fetchAggregateSeries drops every row whose raw value parses to
NaN under toNumericValue, and each surfaced point carries exactly the parsed
value of its row's raw value; however toNumericValue maps a non-empty raw
value with no digit, dot or minus characters to 0 rather than NaN, and a row
with an empty serie record defaults to the fabricated raw value '0', so such
rows are surfaced with value zero. -/
theorem c4_amended_theorem (level : TerritoryLevel) (year : Int) (code : Option String)
    (rows : List SeriesRow) :
    ∀ p ∈ fetchAggregateSeries level year code rows,
      ∃ row ∈ rows, p.code = row.localidadeId ∧ p.name = row.localidadeNome ∧
        toNumericValue (rawSerieValue row.serie year) = some p.value := by
  intro p hp
  have hparsed : p ∈ rows.filterMap (fun row =>
      match toNumericValue (rawSerieValue row.serie year) with
      | some v => some { code := row.localidadeId, name := row.localidadeNome,
                         level := level, year := year, value := v }
      | none => none) := by
    simp only [fetchAggregateSeries] at hp
    cases code with
    | none => exact hp
    | some c =>
      dsimp only at hp
      by_cases hc : level = TerritoryLevel.MUNICIPIO ∧ c ≠ "" ∧ c.length ≤ 2
      · rw [if_pos hc] at hp
        exact (List.mem_filter.mp hp).1
      · rw [if_neg hc] at hp
        exact hp
  obtain ⟨row, hrow, hbody⟩ := List.mem_filterMap.mp hparsed
  cases hv : toNumericValue (rawSerieValue row.serie year) with
  | none =>
    rw [hv] at hbody
    exact absurd hbody (by simp)
  | some v =>
    rw [hv] at hbody
    have hpe := Option.some.inj hbody
    refine ⟨row, hrow, ?_, ?_, ?_⟩
    · rw [← hpe]
    · rw [← hpe]
    · rw [hv, ← hpe]

/-- Witness for C4 amended: a parseable Brazilian-formatted row is surfaced
with exactly its parsed value. -/
theorem c4_amended_witness :
    (({ code := "11", name := "A", level := TerritoryLevel.UF, year := 2021,
        value := mkRat 30864 25 } : IndicatorPoint) ∈
      fetchAggregateSeries TerritoryLevel.UF 2021 none
        [{ localidadeId := "11", localidadeNome := "A",
           serie := [("2021", "1.234,56")] }]) ∧
      ∃ row ∈ [({ localidadeId := "11", localidadeNome := "A",
                  serie := [("2021", "1.234,56")] } : SeriesRow)],
        ({ code := "11", name := "A", level := TerritoryLevel.UF, year := 2021,
           value := mkRat 30864 25 } : IndicatorPoint).code = row.localidadeId ∧
        ({ code := "11", name := "A", level := TerritoryLevel.UF, year := 2021,
           value := mkRat 30864 25 } : IndicatorPoint).name = row.localidadeNome ∧
        toNumericValue (rawSerieValue row.serie 2021) =
          some ({ code := "11", name := "A", level := TerritoryLevel.UF, year := 2021,
                  value := mkRat 30864 25 } : IndicatorPoint).value :=
  ⟨by decide,
    c4_amended_theorem TerritoryLevel.UF 2021 none
      [{ localidadeId := "11", localidadeNome := "A", serie := [("2021", "1.234,56")] }]
      { code := "11", name := "A", level := TerritoryLevel.UF, year := 2021,
        value := mkRat 30864 25 }
      (by decide)⟩

lemma jsMin_le_left (a b : ℚ) : jsMin a b ≤ a := by
  unfold jsMin
  split
  · exact le_refl a
  · exact le_of_not_le (by assumption)

lemma jsMin_le_right (a b : ℚ) : jsMin a b ≤ b := by
  unfold jsMin
  split
  · assumption
  · exact le_refl b

lemma jsMax_ge_left (a b : ℚ) : a ≤ jsMax a b := by
  unfold jsMax
  split
  · assumption
  · exact le_refl a

lemma jsMax_ge_right (a b : ℚ) : b ≤ jsMax a b := by
  unfold jsMax
  split
  · exact le_refl b
  · exact le_of_not_le (by assumption)

lemma foldl_jsMin_le : ∀ (l : List ℚ) (acc : ℚ),
    l.foldl jsMin acc ≤ acc ∧ ∀ v ∈ l, l.foldl jsMin acc ≤ v
  | [], acc => ⟨le_refl acc, by simp⟩
  | x :: xs, acc => by
    have ih := foldl_jsMin_le xs (jsMin acc x)
    refine ⟨le_trans ih.1 (jsMin_le_left acc x), ?_⟩
    intro v hv
    rcases List.mem_cons.mp hv with rfl | hv'
    · exact le_trans ih.1 (jsMin_le_right acc v)
    · exact ih.2 v hv'

lemma foldl_jsMax_ge : ∀ (l : List ℚ) (acc : ℚ),
    acc ≤ l.foldl jsMax acc ∧ ∀ v ∈ l, v ≤ l.foldl jsMax acc
  | [], acc => ⟨le_refl acc, by simp⟩
  | x :: xs, acc => by
    have ih := foldl_jsMax_ge xs (jsMax acc x)
    refine ⟨le_trans (jsMax_ge_left acc x) ih.1, ?_⟩
    intro v hv
    rcases List.mem_cons.mp hv with rfl | hv'
    · exact le_trans (jsMax_ge_right acc v) ih.1
    · exact ih.2 v hv'

lemma listMinQ_le (l : List ℚ) : ∀ v ∈ l, listMinQ l ≤ v := by
  cases l with
  | nil => simp
  | cons x xs =>
    intro v hv
    rcases List.mem_cons.mp hv with rfl | hv'
    · exact (foldl_jsMin_le xs v).1
    · exact (foldl_jsMin_le xs x).2 v hv'

lemma listMaxQ_ge (l : List ℚ) : ∀ v ∈ l, v ≤ listMaxQ l := by
  cases l with
  | nil => simp
  | cons x xs =>
    intro v hv
    rcases List.mem_cons.mp hv with rfl | hv'
    · exact (foldl_jsMax_ge xs v).1
    · exact (foldl_jsMax_ge xs x).2 v hv'

lemma foldl_add_from (l : List ℚ) : ∀ acc : ℚ, l.foldl (fun a b => a + b) acc = acc + l.sum := by
  induction l with
  | nil => intro acc; simp
  | cons x xs ih =>
    intro acc
    simp only [List.foldl_cons, List.sum_cons, ih (acc + x)]
    ring

/-- C9: for every successful data response, count and the stats fields are
computed over the entire filtered set (independent of limit, with zeros for
an empty filtered set, min and max bounding every filtered value, total the
sum of filtered values, and average total over count), while items is only
the first limit points of the value-descending sort; whenever the filtered
set exceeds limit, items is strictly shorter than count, so the stats
describe points absent from items. -/
theorem c9_theorem (indicator : String) (level : TerritoryLevel) (code : Option String)
    (year : Int) (points : List IndicatorPoint) (search : Option String) (limit : Nat) :
    (buildDataPayload indicator level code year points search limit).count =
        (dataFiltered points search).length ∧
      (buildDataPayload indicator level code year points search limit).items =
        (sortByValueDesc (dataFiltered points search)).take limit ∧
      (buildDataPayload indicator level code year points search limit).items.length =
        min limit (dataFiltered points search).length ∧
      (∀ p ∈ (buildDataPayload indicator level code year points search limit).items,
        p ∈ dataFiltered points search) ∧
      (∀ limit2, (buildDataPayload indicator level code year points search limit2).stats =
        (buildDataPayload indicator level code year points search limit).stats) ∧
      (limit < (dataFiltered points search).length →
        (buildDataPayload indicator level code year points search limit).items.length <
          (buildDataPayload indicator level code year points search limit).count) ∧
      (buildDataPayload indicator level code year points search limit).stats.total =
        ((dataFiltered points search).map (fun row => row.value)).sum ∧
      (dataFiltered points search = [] →
        (buildDataPayload indicator level code year points search limit).stats =
          { min := 0, max := 0, average := 0, total := 0 }) ∧
      (dataFiltered points search ≠ [] →
        (∀ p ∈ dataFiltered points search,
          (buildDataPayload indicator level code year points search limit).stats.min ≤
              p.value ∧
            p.value ≤
              (buildDataPayload indicator level code year points search limit).stats.max) ∧
          (buildDataPayload indicator level code year points search limit).stats.average =
            (buildDataPayload indicator level code year points search limit).stats.total /
              (dataFiltered points search).length) := by
  have hperm := jsSort_perm (fun a b : IndicatorPoint => decide (b.value ≤ a.value))
    (dataFiltered points search)
  have hlen : (sortByValueDesc (dataFiltered points search)).length =
      (dataFiltered points search).length := hperm.length_eq
  have hitems : (buildDataPayload indicator level code year points search limit).items.length =
      min limit (dataFiltered points search).length := by
    show ((sortByValueDesc (dataFiltered points search)).take limit).length = _
    rw [List.length_take, hlen]
  have htotal : (buildDataPayload indicator level code year points search limit).stats.total =
      ((dataFiltered points search).map (fun row => row.value)).sum := by
    show ((dataFiltered points search).map (fun row => row.value)).foldl
        (fun a b => a + b) 0 = _
    rw [foldl_add_from]
    ring
  refine ⟨rfl, rfl, hitems, ?_, fun limit2 => rfl, ?_, htotal, ?_, ?_⟩
  · intro p hp
    have hsorted : p ∈ sortByValueDesc (dataFiltered points search) :=
      (List.take_sublist limit _).mem hp
    exact hperm.mem_iff.mp hsorted
  · intro hlt
    rw [hitems]
    show min limit (dataFiltered points search).length < (dataFiltered points search).length
    omega
  · intro hnil
    show DataStats.mk _ _ _ _ = _
    rw [hnil]
    simp
  · intro hne
    have hlenne : (dataFiltered points search).length ≠ 0 := by
      intro h0
      exact hne (List.eq_nil_of_length_eq_zero h0)
    constructor
    · intro p hp
      constructor
      · show (if (dataFiltered points search).length ≠ 0 then
            listMinQ ((dataFiltered points search).map (fun row => row.value)) else 0) ≤ p.value
        rw [if_pos hlenne]
        exact listMinQ_le _ p.value (List.mem_map.mpr ⟨p, hp, rfl⟩)
      · show p.value ≤ (if (dataFiltered points search).length ≠ 0 then
            listMaxQ ((dataFiltered points search).map (fun row => row.value)) else 0)
        rw [if_pos hlenne]
        exact listMaxQ_ge _ p.value (List.mem_map.mpr ⟨p, hp, rfl⟩)
    · show (if (dataFiltered points search).length ≠ 0 then _ / _ else 0) = _
      rw [if_pos hlenne, foldl_add_from, zero_add, htotal]

/-- Witness for C9: with three points and limit 1, items is strictly shorter
than count (the stats describe points missing from items), and with no points
the stats are exactly zero. -/
theorem c9_witness :
    (1 < (dataFiltered
        [{ code := "1", name := "x", level := TerritoryLevel.UF, year := 2022, value := 3 },
         { code := "2", name := "y", level := TerritoryLevel.UF, year := 2022, value := 1 },
         { code := "3", name := "z", level := TerritoryLevel.UF, year := 2022, value := 2 }]
        none).length) ∧
      (buildDataPayload "population" TerritoryLevel.UF none 2022
        [{ code := "1", name := "x", level := TerritoryLevel.UF, year := 2022, value := 3 },
         { code := "2", name := "y", level := TerritoryLevel.UF, year := 2022, value := 1 },
         { code := "3", name := "z", level := TerritoryLevel.UF, year := 2022, value := 2 }]
        none 1).items.length <
        (buildDataPayload "population" TerritoryLevel.UF none 2022
          [{ code := "1", name := "x", level := TerritoryLevel.UF, year := 2022, value := 3 },
           { code := "2", name := "y", level := TerritoryLevel.UF, year := 2022, value := 1 },
           { code := "3", name := "z", level := TerritoryLevel.UF, year := 2022, value := 2 }]
          none 1).count ∧
      (buildDataPayload "population" TerritoryLevel.UF none 2022 [] none 1).stats =
        { min := 0, max := 0, average := 0, total := 0 } :=
  ⟨by decide,
    ( c9_theorem "population" TerritoryLevel.UF none 2022
        [{ code := "1", name := "x", level := TerritoryLevel.UF, year := 2022, value := 3 },
         { code := "2", name := "y", level := TerritoryLevel.UF, year := 2022, value := 1 },
         { code := "3", name := "z", level := TerritoryLevel.UF, year := 2022, value := 2 }]
        none 1).2.2.2.2.2.1 (by decide),
    ( c9_theorem "population" TerritoryLevel.UF none 2022 [] none 1).2.2.2.2.2.2.2.1 rfl⟩

/-- Counterexample for C1: on two territories (equal literacy 50, incomes 0
and 100, equal life expectancy 60), fetchIdhProxy returns the index 11/42 for
the first territory, a value in the 0..1 range that is not an integer
multiple of 1/100 — so the result is not a 0-100 score rounded to two
decimals, and the education and longevity components are not min-max
normalized across the territory set (equal literacy would give 0.5, yet the
education dimension is 50/100); no component carries a NEGATIVE direction
flip in this code. -/
theorem c1_counterexample :
    fetchIdhProxy
        [{ code := "A", name := "A", level := TerritoryLevel.UF, year := 2010, value := 50 },
         { code := "B", name := "B", level := TerritoryLevel.UF, year := 2010, value := 50 }]
        [{ code := "A", name := "A", level := TerritoryLevel.UF, year := 2023, value := 0 },
         { code := "B", name := "B", level := TerritoryLevel.UF, year := 2023, value := 100 }]
        [{ code := "A", name := "A", level := TerritoryLevel.UF, year := 2014, value := 60 },
         { code := "B", name := "B", level := TerritoryLevel.UF, year := 2014, value := 60 }] =
      [{ code := "A", name := "A", level := TerritoryLevel.UF, year := 2022,
         value := mkRat 11 42 },
       { code := "B", name := "B", level := TerritoryLevel.UF, year := 2022,
         value := mkRat 25 42 }] ∧
      ¬ ∃ n : ℤ, (mkRat 11 42 : ℚ) = n / 100 := by
  constructor
  · simp only [fetchIdhProxy, jsNewMap, jsMapSet, jsMapGet, listMinQ, listMaxQ, jsMin, jsMax,
      clampNumeric, List.foldl, List.map, List.filterMap, List.find?, List.length,
      String.reduceBEq, String.reduceEq, Option.map_some, Option.map_none]
    norm_num [Rat.mkRat_eq_div, IndicatorPoint.mk.injEq]
  · rintro ⟨n, hn⟩
    have h1 : (mkRat 11 42 : ℚ) = 11 / 42 := by norm_num [Rat.mkRat_eq_div]
    rw [h1] at hn
    have h2 : (1100 : ℚ) = (n : ℚ) * 42 := by
      field_simp at hn
      linarith
    have h3 : (1100 : ℤ) = n * 42 := by exact_mod_cast h2
    omega

lemma clamp01_bounds (v : ℚ) : 0 ≤ clampNumeric v 0 1 ∧ clampNumeric v 0 1 ≤ 1 := by
  unfold clampNumeric
  refine ⟨?_, jsMin_le_left 1 (jsMax 0 v)⟩
  have h0 : (0 : ℚ) ≤ jsMax 0 v := jsMax_ge_left 0 v
  unfold jsMin
  split
  · norm_num
  · exact h0

/-- C1 amended: fetchIdhProxy keeps only the territories of the derived
income series that also appear in both the literacy and the life expectancy
series; for each one the value is the plain unweighted mean of three clamped
dimensions — literacy/100, the min-max-normalized income (defaulting to the
midpoint 1/2 when the observed income span is not positive), and
(life-50)/35 — producing an index in the closed interval 0..1 dated 2022,
with no NEGATIVE-direction flip, no re-normalization over partially available
components, and no rescaling to a 0-100 two-decimal score. -/
theorem c1_amended_theorem (literacyRows incomeRows lifeRows : List IndicatorPoint) :
    ∀ p ∈ fetchIdhProxy literacyRows incomeRows lifeRows,
      p.year = 2022 ∧ 0 ≤ p.value ∧ p.value ≤ 1 ∧
        ∃ inc ∈ incomeRows, ∃ lit life : IndicatorPoint,
          jsMapGet (jsNewMap (literacyRows.map (fun item => (item.code, item)))) inc.code =
              some lit ∧
            jsMapGet (jsNewMap (lifeRows.map (fun item => (item.code, item)))) inc.code =
              some life ∧
            p.code = inc.code ∧ p.name = inc.name ∧
            p.value = (clampNumeric (lit.value / 100) 0 1 +
                (if 0 < ((if (incomeRows.map (fun item => item.value)).length ≠ 0 then
                        listMaxQ (incomeRows.map (fun item => item.value)) else 1) -
                      (if (incomeRows.map (fun item => item.value)).length ≠ 0 then
                        listMinQ (incomeRows.map (fun item => item.value)) else 0)) then
                  clampNumeric ((inc.value -
                      (if (incomeRows.map (fun item => item.value)).length ≠ 0 then
                        listMinQ (incomeRows.map (fun item => item.value)) else 0)) /
                    ((if (incomeRows.map (fun item => item.value)).length ≠ 0 then
                        listMaxQ (incomeRows.map (fun item => item.value)) else 1) -
                      (if (incomeRows.map (fun item => item.value)).length ≠ 0 then
                        listMinQ (incomeRows.map (fun item => item.value)) else 0))) 0 1
                else mkRat 1 2) +
              clampNumeric ((life.value - 50) / 35) 0 1) / 3 := by
  intro p hp
  simp only [fetchIdhProxy, List.mem_filterMap] at hp
  obtain ⟨inc, hinc, hbody⟩ := hp
  cases hlit : jsMapGet (jsNewMap (literacyRows.map (fun item => (item.code, item))))
      inc.code with
  | none =>
    rw [hlit] at hbody
    exact absurd hbody (by simp)
  | some lit =>
    cases hlife : jsMapGet (jsNewMap (lifeRows.map (fun item => (item.code, item))))
        inc.code with
    | none =>
      rw [hlit, hlife] at hbody
      exact absurd hbody (by simp)
    | some life =>
      rw [hlit, hlife] at hbody
      dsimp only at hbody
      have hpe := Option.some.inj hbody
      set minI : ℚ := (if (incomeRows.map (fun item => item.value)).length ≠ 0 then
          listMinQ (incomeRows.map (fun item => item.value)) else 0) with hminI
      set maxI : ℚ := (if (incomeRows.map (fun item => item.value)).length ≠ 0 then
          listMaxQ (incomeRows.map (fun item => item.value)) else 1) with hmaxI
      have he := clamp01_bounds (lit.value / 100)
      have hlo := clamp01_bounds ((life.value - 50) / 35)
      have hhalf : (0 : ℚ) ≤ mkRat 1 2 ∧ (mkRat 1 2 : ℚ) ≤ 1 := by
        norm_num [Rat.mkRat_eq_div]
      have hi : 0 ≤ (if 0 < maxI - minI then
            clampNumeric ((inc.value - minI) / (maxI - minI)) 0 1 else mkRat 1 2) ∧
          (if 0 < maxI - minI then
            clampNumeric ((inc.value - minI) / (maxI - minI)) 0 1 else mkRat 1 2) ≤ 1 := by
        split
        · exact clamp01_bounds _
        · exact hhalf
      refine ⟨?_, ?_, ?_, inc, hinc, lit, life, hlit, hlife, ?_, ?_, ?_⟩
      · rw [← hpe]
      · rw [← hpe]
        show 0 ≤ (clampNumeric (lit.value / 100) 0 1 +
          (if 0 < maxI - minI then clampNumeric ((inc.value - minI) / (maxI - minI)) 0 1
            else mkRat 1 2) + clampNumeric ((life.value - 50) / 35) 0 1) / 3
        apply div_nonneg _ (by norm_num : (0 : ℚ) ≤ 3)
        linarith [he.1, hi.1, hlo.1]
      · rw [← hpe]
        show (clampNumeric (lit.value / 100) 0 1 +
          (if 0 < maxI - minI then clampNumeric ((inc.value - minI) / (maxI - minI)) 0 1
            else mkRat 1 2) + clampNumeric ((life.value - 50) / 35) 0 1) / 3 ≤ 1
        rw [div_le_one (by norm_num : (0 : ℚ) < 3)]
        linarith [he.2, hi.2, hlo.2]
      · rw [← hpe]
      · rw [← hpe]
      · rw [← hpe]

/-- Witness for C1 amended: the first territory of the concrete three-series
instance is produced with an index value 11/42 inside 0..1. -/
theorem c1_amended_witness :
    (({ code := "A", name := "A", level := TerritoryLevel.UF, year := 2022,
        value := mkRat 11 42 } : IndicatorPoint) ∈
      fetchIdhProxy
        [{ code := "A", name := "A", level := TerritoryLevel.UF, year := 2010, value := 50 },
         { code := "B", name := "B", level := TerritoryLevel.UF, year := 2010, value := 50 }]
        [{ code := "A", name := "A", level := TerritoryLevel.UF, year := 2023, value := 0 },
         { code := "B", name := "B", level := TerritoryLevel.UF, year := 2023, value := 100 }]
        [{ code := "A", name := "A", level := TerritoryLevel.UF, year := 2014, value := 60 },
         { code := "B", name := "B", level := TerritoryLevel.UF, year := 2014, value := 60 }]) ∧
      (0 : ℚ) ≤ mkRat 11 42 ∧ (mkRat 11 42 : ℚ) ≤ 1 := by
  have heval : fetchIdhProxy
      [{ code := "A", name := "A", level := TerritoryLevel.UF, year := 2010, value := 50 },
       { code := "B", name := "B", level := TerritoryLevel.UF, year := 2010, value := 50 }]
      [{ code := "A", name := "A", level := TerritoryLevel.UF, year := 2023, value := 0 },
       { code := "B", name := "B", level := TerritoryLevel.UF, year := 2023, value := 100 }]
      [{ code := "A", name := "A", level := TerritoryLevel.UF, year := 2014, value := 60 },
       { code := "B", name := "B", level := TerritoryLevel.UF, year := 2014, value := 60 }] =
      [{ code := "A", name := "A", level := TerritoryLevel.UF, year := 2022,
         value := mkRat 11 42 },
       { code := "B", name := "B", level := TerritoryLevel.UF, year := 2022,
         value := mkRat 25 42 }] := by
    simp only [fetchIdhProxy, jsNewMap, jsMapSet, jsMapGet, listMinQ, listMaxQ, jsMin, jsMax,
      clampNumeric, List.foldl, List.map, List.filterMap, List.find?, List.length,
      String.reduceBEq, String.reduceEq, Option.map_some, Option.map_none]
    norm_num [Rat.mkRat_eq_div, IndicatorPoint.mk.injEq]
  have hmem : ({ code := "A", name := "A", level := TerritoryLevel.UF, year := 2022,
                 value := mkRat 11 42 } : IndicatorPoint) ∈
      fetchIdhProxy
        [{ code := "A", name := "A", level := TerritoryLevel.UF, year := 2010, value := 50 },
         { code := "B", name := "B", level := TerritoryLevel.UF, year := 2010, value := 50 }]
        [{ code := "A", name := "A", level := TerritoryLevel.UF, year := 2023, value := 0 },
         { code := "B", name := "B", level := TerritoryLevel.UF, year := 2023, value := 100 }]
        [{ code := "A", name := "A", level := TerritoryLevel.UF, year := 2014, value := 60 },
         { code := "B", name := "B", level := TerritoryLevel.UF, year := 2014, value := 60 }] := by
    rw [heval]
    exact List.mem_cons_self _ _
  have h := c1_amended_theorem
    [{ code := "A", name := "A", level := TerritoryLevel.UF, year := 2010, value := 50 },
     { code := "B", name := "B", level := TerritoryLevel.UF, year := 2010, value := 50 }]
    [{ code := "A", name := "A", level := TerritoryLevel.UF, year := 2023, value := 0 },
     { code := "B", name := "B", level := TerritoryLevel.UF, year := 2023, value := 100 }]
    [{ code := "A", name := "A", level := TerritoryLevel.UF, year := 2014, value := 60 },
     { code := "B", name := "B", level := TerritoryLevel.UF, year := 2014, value := 60 }]
    { code := "A", name := "A", level := TerritoryLevel.UF, year := 2022,
      value := mkRat 11 42 } hmem
  exact ⟨hmem, h.2.1, h.2.2.1⟩

lemma jsMapGet_set_self {β : Type} (m : List (String × β)) (k : String) (v : β) :
    jsMapGet (jsMapSet m k v) k = some v := by
  induction m with
  | nil => simp [jsMapSet, jsMapGet]
  | cons e rest ih =>
    by_cases he : e.1 = k
    · simp [jsMapSet, he, jsMapGet]
    · unfold jsMapSet
      rw [if_neg he]
      unfold jsMapGet
      rw [@List.find?_cons_of_neg _ (fun x => x.1 == k) e _ (by simpa using he)]
      exact ih

lemma pgUpsert_of_find?_none (rows : List PgRow) (key payload : String) (expiresAt : Int)
    (h : rows.find? (fun r => r.key == key) = none) :
    pgUpsert rows key payload expiresAt =
      rows ++ [{ key := key, payload := payload, expiresAt := expiresAt }] := by
  induction rows with
  | nil => rfl
  | cons r rest ih =>
    have hr : ¬ (r.key == key) = true := by
      intro hb
      rw [@List.find?_cons_of_pos _ (fun x => x.key == key) r _ hb] at h
      exact Option.noConfusion h
    rw [@List.find?_cons_of_neg _ (fun x => x.key == key) r _ hr] at h
    unfold pgUpsert
    rw [if_neg (by simpa using hr), ih h]
    rfl

lemma find?_append_singleton_self (rows : List PgRow) (key payload : String)
    (expiresAt : Int) (h : rows.find? (fun r => r.key == key) = none) :
    (rows ++ [({ key := key, payload := payload, expiresAt := expiresAt } : PgRow)]).find?
        (fun r => r.key == key) =
      some ({ key := key, payload := payload, expiresAt := expiresAt } : PgRow) := by
  rw [List.find?_append, h]
  simp

/-- C6: calling cachedJson twice with the same namespace, parameter bag and
TTL, when at least one tier is available and functioning and the key is
fresh, makes the first call a miss that invokes the producer exactly once and
returns its bytes, and makes the second call (within the TTL) a tier hit
returning byte-identical payload without invoking the producer, whatever the
second producer would have returned. -/
theorem c6_theorem (t : Tiers) (now1 now2 ttl : Int) (ns : String)
    (params : List (String × CVal)) (p1 p2 : String)
    (hav : t.edge.isSome ∨ t.kv.isSome ∨ t.pg.isSome)
    (hp1 : p1 ≠ "")
    (hlt : now2 < now1 + ttl * 1000)
    (hedge : ∀ m, t.edge = some m →
      jsMapGet m (cacheRequestUrl (cacheKeyFrom ns params)) = none)
    (hkv : ∀ m, t.kv = some m → jsMapGet m (cacheKeyFrom ns params) = none)
    (hpg : ∀ rows, t.pg = some rows →
      rows.find? (fun r => r.key == cacheKeyFrom ns params) = none) :
    (cachedJson t now1 ns params ttl p1).hit = false ∧
      (cachedJson t now1 ns params ttl p1).producerCalls = 1 ∧
      (cachedJson t now1 ns params ttl p1).body = p1 ∧
      (cachedJson (cachedJson t now1 ns params ttl p1).tiers now2 ns params ttl p2).hit =
        true ∧
      (cachedJson (cachedJson t now1 ns params ttl p1).tiers now2 ns params ttl
        p2).producerCalls = 0 ∧
      (cachedJson (cachedJson t now1 ns params ttl p1).tiers now2 ns params ttl p2).body =
        p1 := by
  have hE : t.edge.bind
      (fun m => jsMapGet m (cacheRequestUrl (cacheKeyFrom ns params))) = none := by
    cases htE : t.edge with
    | none => rfl
    | some m => simp [hedge m htE]
  have hK : (t.kv.bind (fun m => jsMapGet m (cacheKeyFrom ns params))).filter
      (fun body => body != "") = none := by
    cases htK : t.kv with
    | none => rfl
    | some m => simp [hkv m htK]
  have hP : readFromPostgres t.pg (cacheKeyFrom ns params) now1 = none := by
    cases htP : t.pg with
    | none => rfl
    | some rows =>
      unfold readFromPostgres
      dsimp only
      rw [hpg rows htP]
  have e1 : cachedJson t now1 ns params ttl p1 =
      { body := p1, hit := false,
        tiers := { edge := t.edge.map (fun m =>
                     jsMapSet m (cacheRequestUrl (cacheKeyFrom ns params)) p1),
                   kv := t.kv.map (fun m => jsMapSet m (cacheKeyFrom ns params) p1),
                   pg := writeToPostgres t.pg (cacheKeyFrom ns params) p1 ttl now1 },
        producerCalls := 1 } := by
    simp only [cachedJson]
    rw [hE]
    dsimp only
    rw [hK]
    dsimp only
    rw [hP]
  refine ⟨by rw [e1], by rw [e1], by rw [e1], ?_, ?_, ?_⟩ <;>
    (rw [e1]
     cases htE : t.edge with
     | some m =>
       simp [cachedJson, jsMapGet_set_self]
     | none =>
       cases htK : t.kv with
       | some m =>
         have hb : (p1 != "") = true := by simpa using hp1
         simp [cachedJson, jsMapGet_set_self, Option.filter, hb]
       | none =>
         cases htP : t.pg with
         | some rows =>
           have hfind := find?_append_singleton_self rows (cacheKeyFrom ns params) p1
             (now1 + ttl * 1000) (hpg rows htP)
           have hexp : ¬ (now1 + ttl * 1000 ≤ now2) := by omega
           simp [cachedJson, writeToPostgres, readFromPostgres,
             pgUpsert_of_find?_none rows (cacheKeyFrom ns params) p1 (now1 + ttl * 1000)
               (hpg rows htP), hfind, hexp, parseStoredPayload, hp1]
         | none =>
           rw [htE, htK, htP] at hav
           simp at hav)

/-- Witness for C6: with all three tiers available and empty, the first call
is a producing miss and the second call within the TTL is a hit returning
the first call's bytes. -/
theorem c6_witness :
    ("payloadA" ≠ "") ∧
      ((1 : Int) < 0 + 600 * 1000) ∧
      (cachedJson { edge := some [], kv := some [], pg := some [] } 0 "data"
        [("indicator", CVal.vStr "population")] 600 "payloadA").producerCalls = 1 ∧
      (cachedJson (cachedJson { edge := some [], kv := some [], pg := some [] } 0 "data"
          [("indicator", CVal.vStr "population")] 600 "payloadA").tiers 1 "data"
          [("indicator", CVal.vStr "population")] 600 "payloadB").hit = true ∧
      (cachedJson (cachedJson { edge := some [], kv := some [], pg := some [] } 0 "data"
          [("indicator", CVal.vStr "population")] 600 "payloadA").tiers 1 "data"
          [("indicator", CVal.vStr "population")] 600 "payloadB").body = "payloadA" :=
  have h := c6_theorem { edge := some [], kv := some [], pg := some [] } 0 1 600 "data"
    [("indicator", CVal.vStr "population")] "payloadA" "payloadB"
    (Or.inl rfl) (by decide) (by decide)
    (fun m hm => by rw [← Option.some.inj hm]; rfl)
    (fun m hm => by rw [← Option.some.inj hm]; rfl)
    (fun rows hr => by rw [← Option.some.inj hr]; rfl)
  ⟨by decide, by decide, h.2.1, h.2.2.2.1, h.2.2.2.2.2⟩

lemma digit_not_ws {c : Char} (h : c.isDigit = true) : c.isWhitespace = false := by
  cases hws : c.isWhitespace
  · rfl
  · exfalso
    simp only [Char.isWhitespace, Bool.or_eq_true, decide_eq_true_eq] at hws
    rcases hws with ((rfl | rfl) | rfl) | rfl <;> exact absurd h (by decide)

lemma dropWhile_eq_self_of_all {p : Char → Bool} :
    ∀ l : List Char, (∀ c ∈ l, p c = false) → l.dropWhile p = l
  | [], _ => rfl
  | x :: xs, h => by
    rw [List.dropWhile_cons, if_neg (by simp [h x (List.mem_cons_self x xs)])]

lemma jsTrim_eq_self (l : List Char) (h : ∀ c ∈ l, c.isWhitespace = false) :
    jsTrim l = l := by
  unfold jsTrim
  rw [dropWhile_eq_self_of_all l h,
    dropWhile_eq_self_of_all l.reverse (fun c hc => h c (List.mem_reverse.mp hc)),
    List.reverse_reverse]

lemma lastIndexOf_of_not_mem : ∀ (l : List Char) (c : Char), c ∉ l → lastIndexOf l c = -1
  | [], _, _ => rfl
  | x :: xs, c, h => by
    have hx : x ≠ c := fun e => h (by rw [e]; exact List.mem_cons_self c xs)
    have hr := lastIndexOf_of_not_mem xs c (fun hm => h (List.mem_cons_of_mem x hm))
    unfold lastIndexOf
    dsimp only
    rw [hr, if_neg (by decide), if_neg hx]

lemma lastIndexOf_lt_length : ∀ (l : List Char) (c : Char),
    lastIndexOf l c < (l.length : Int)
  | [], _ => by simp [lastIndexOf]
  | x :: xs, c => by
    have ih := lastIndexOf_lt_length xs c
    unfold lastIndexOf
    dsimp only
    split
    · simp only [List.length_cons]
      push_cast
      omega
    · split
      · simp only [List.length_cons]
        push_cast
        omega
      · simp only [List.length_cons]
        push_cast
        omega

lemma lastIndexOf_append_of_not_mem_right : ∀ (xs ys : List Char) (c : Char), c ∉ ys →
    lastIndexOf (xs ++ ys) c = lastIndexOf xs c
  | [], ys, c, h => by simp [lastIndexOf_of_not_mem ys c h, lastIndexOf]
  | x :: xs, ys, c, h => by
    have ih := lastIndexOf_append_of_not_mem_right xs ys c h
    show lastIndexOf (x :: (xs ++ ys)) c = lastIndexOf (x :: xs) c
    unfold lastIndexOf
    dsimp only
    rw [ih]

lemma lastIndexOf_append_cons_self : ∀ (xs ys : List Char) (c : Char), c ∉ ys →
    lastIndexOf (xs ++ c :: ys) c = (xs.length : Int)
  | [], ys, c, h => by
    show lastIndexOf (c :: ys) c = 0
    unfold lastIndexOf
    dsimp only
    rw [lastIndexOf_of_not_mem ys c h, if_neg (by decide), if_pos rfl]
  | x :: xs, ys, c, h => by
    have ih := lastIndexOf_append_cons_self xs ys c h
    show lastIndexOf (x :: (xs ++ c :: ys)) c = ((x :: xs).length : Int)
    unfold lastIndexOf
    dsimp only
    rw [ih, if_pos (by positivity)]
    simp only [List.length_cons]
    push_cast
    omega

lemma mem_joinSep : ∀ (groups : List (List Char)) (c d : Char),
    d ∈ joinSep groups c → d ∈ groups.flatten ∨ d = c
  | [], _, _, h => absurd h (by simp [joinSep])
  | [g], c, d, h => by
    left
    simpa [joinSep] using h
  | g :: g2 :: gs, c, d, h => by
    rw [show joinSep (g :: g2 :: gs) c = g ++ c :: joinSep (g2 :: gs) c from rfl] at h
    rcases List.mem_append.mp h with hg | hrest
    · exact Or.inl (List.mem_flatten.mpr ⟨g, by simp, hg⟩)
    · rcases List.mem_cons.mp hrest with rfl | h2
      · exact Or.inr rfl
      · rcases mem_joinSep (g2 :: gs) c d h2 with hmem | rfl
        · obtain ⟨l, hl, hd⟩ := List.mem_flatten.mp hmem
          exact Or.inl (List.mem_flatten.mpr ⟨l, List.mem_cons_of_mem g hl, hd⟩)
        · exact Or.inr rfl

lemma sep_mem_joinSep (g g2 : List Char) (gs : List (List Char)) (c : Char) :
    c ∈ joinSep (g :: g2 :: gs) c := by
  rw [show joinSep (g :: g2 :: gs) c = g ++ c :: joinSep (g2 :: gs) c from rfl]
  exact List.mem_append.mpr (Or.inr (List.mem_cons_self c _))

lemma joinSep_filter_ne : ∀ (groups : List (List Char)) (c : Char),
    (∀ g ∈ groups, ∀ d ∈ g, d ≠ c) →
    (joinSep groups c).filter (fun d => d != c) = groups.flatten
  | [], c, _ => rfl
  | [g], c, h => by
    show g.filter (fun d => d != c) = [g].flatten
    rw [List.filter_eq_self.mpr (fun d hd => by simpa using h g (by simp) d hd)]
    simp
  | g :: g2 :: gs, c, h => by
    show ((g ++ c :: joinSep (g2 :: gs) c).filter (fun d => d != c)) =
      (g :: g2 :: gs).flatten
    rw [List.filter_append,
      List.filter_eq_self.mpr (fun d hd => by simpa using h g (by simp) d hd),
      show (c :: joinSep (g2 :: gs) c).filter (fun d => d != c) =
        (joinSep (g2 :: gs) c).filter (fun d => d != c) from by simp [List.filter_cons],
      joinSep_filter_ne (g2 :: gs) c
        (fun g' hg' d hd => h g' (List.mem_cons_of_mem g hg') d hd)]
    simp

lemma takeWhile_digits_append_dot : ∀ (D frac : List Char),
    (∀ d ∈ D, d.isDigit = true) →
    (D ++ '.' :: frac).takeWhile Char.isDigit = D
  | [], frac, _ => by
    rw [List.nil_append, List.takeWhile_cons, if_neg (by decide)]
  | d :: D, frac, h => by
    rw [List.cons_append, List.takeWhile_cons, if_pos (h d (by simp)),
      takeWhile_digits_append_dot D frac (fun x hx => h x (by simp [hx]))]

lemma dropWhile_digits_append_dot : ∀ (D frac : List Char),
    (∀ d ∈ D, d.isDigit = true) →
    (D ++ '.' :: frac).dropWhile Char.isDigit = '.' :: frac
  | [], frac, _ => by
    rw [List.nil_append, List.dropWhile_cons, if_neg (by decide)]
  | d :: D, frac, h => by
    rw [List.cons_append, List.dropWhile_cons, if_pos (h d (by simp)),
      dropWhile_digits_append_dot D frac (fun x hx => h x (by simp [hx]))]

lemma replaceFirst_append_cons : ∀ (xs ys : List Char) (a b : Char), a ∉ xs →
    replaceFirst (xs ++ a :: ys) a b = xs ++ b :: ys
  | [], ys, a, b, _ => by
    show replaceFirst (a :: ys) a b = b :: ys
    unfold replaceFirst
    rw [if_pos rfl]
  | x :: xs, ys, a, b, h => by
    have hx : x ≠ a := fun e => h (by rw [e]; exact List.mem_cons_self a xs)
    show replaceFirst (x :: (xs ++ a :: ys)) a b = x :: (xs ++ b :: ys)
    unfold replaceFirst
    rw [if_neg hx, replaceFirst_append_cons xs ys a b (fun hm => h (List.mem_cons_of_mem x hm))]

lemma jsNumberOfDigitsDot_digits_dot (D frac : List Char)
    (hD : ∀ d ∈ D, d.isDigit = true) (hf : ∀ d ∈ frac, d.isDigit = true)
    (hfne : frac ≠ []) :
    jsNumberOfDigitsDot (D ++ '.' :: frac) =
      some (mkRat (natOfDigits D * 10 ^ frac.length + natOfDigits frac)
        (10 ^ frac.length)) := by
  unfold jsNumberOfDigitsDot
  rw [takeWhile_digits_append_dot D frac hD, dropWhile_digits_append_dot D frac hD]
  dsimp only
  rw [if_pos ⟨rfl, by simpa [List.all_eq_true] using hf, Or.inr hfne⟩]
  push_cast
  ring_nf

lemma jsNumber_signed (neg : Bool) (D frac : List Char)
    (hD : ∀ d ∈ D, d.isDigit = true) (hDne : D ≠ [])
    (hf : ∀ d ∈ frac, d.isDigit = true) (hfne : frac ≠ []) :
    jsNumber ((if neg then ['-'] else []) ++ D ++ '.' :: frac) =
      some (if neg then
        -(mkRat (natOfDigits D * 10 ^ frac.length + natOfDigits frac) (10 ^ frac.length))
      else mkRat (natOfDigits D * 10 ^ frac.length + natOfDigits frac)
        (10 ^ frac.length)) := by
  cases neg with
  | true =>
    show jsNumber ('-' :: (D ++ '.' :: frac)) = _
    unfold jsNumber
    dsimp only
    rw [if_pos rfl, jsNumberOfDigitsDot_digits_dot D frac hD hf hfne]
    simp
  | false =>
    cases D with
    | nil => exact absurd rfl hDne
    | cons d0 D' =>
      show jsNumber (d0 :: (D' ++ '.' :: frac)) = _
      unfold jsNumber
      dsimp only
      have hd0 : d0 ≠ '-' := by
        intro he
        have := hD d0 (by simp)
        rw [he] at this
        exact absurd this (by decide)
      rw [if_neg hd0]
      rw [show d0 :: (D' ++ '.' :: frac) = (d0 :: D') ++ '.' :: frac from rfl]
      rw [jsNumberOfDigitsDot_digits_dot (d0 :: D') frac hD hf hfne]
      simp

lemma cleanup_filter_eq_self (l : List Char)
    (h : ∀ c ∈ l, c.isDigit = true ∨ c = '.' ∨ c = '-') :
    l.filter (fun c => c.isDigit || c == '.' || c == '-') = l :=
  List.filter_eq_self.mpr (fun c hc => by
    rcases h c hc with hd | rfl | rfl
    · simp [hd]
    · simp
    · simp)

lemma hS_mem (neg : Bool) : ∀ c ∈ (if neg then ['-'] else ([] : List Char)), c = '-' := by
  cases neg <;> intro c hc <;> simp_all

lemma digit_ne_seps {d : Char} (hd : d.isDigit = true) : d ≠ ',' ∧ d ≠ '.' ∧ d ≠ '-' := by
  refine ⟨?_, ?_, ?_⟩ <;> intro he <;> rw [he] at hd <;> exact absurd hd (by decide)

lemma class_not_ws {L : List Char}
    (hL : ∀ c ∈ L, c.isDigit = true ∨ c = '.' ∨ c = ',' ∨ c = '-') :
    ∀ c ∈ L, c.isWhitespace = false := by
  intro c hc
  rcases hL c hc with hd | rfl | rfl | rfl
  · exact digit_not_ws hd
  · decide
  · decide
  · decide

lemma groupedValue_eq (neg : Bool) (groups : List (List Char)) (frac : List Char) :
    groupedValue neg groups frac =
      if neg then
        -(mkRat (natOfDigits groups.flatten * 10 ^ frac.length + natOfDigits frac)
          (10 ^ frac.length))
      else
        mkRat (natOfDigits groups.flatten * 10 ^ frac.length + natOfDigits frac)
          (10 ^ frac.length) := by
  unfold groupedValue
  cases neg <;> · dsimp only; push_cast; ring_nf

lemma toNumericValue_plain (neg : Bool) (D frac : List Char)
    (hD : ∀ d ∈ D, d.isDigit = true) (hDne : D ≠ [])
    (hf : ∀ d ∈ frac, d.isDigit = true) (hfne : frac ≠ []) :
    toNumericValue (String.mk ((if neg then ['-'] else []) ++ D ++ '.' :: frac)) =
      some (if neg then
        -(mkRat (natOfDigits D * 10 ^ frac.length + natOfDigits frac) (10 ^ frac.length))
      else mkRat (natOfDigits D * 10 ^ frac.length + natOfDigits frac)
        (10 ^ frac.length)) := by
  have hclass : ∀ c ∈ (if neg then ['-'] else []) ++ D ++ '.' :: frac,
      c.isDigit = true ∨ c = '.' ∨ c = ',' ∨ c = '-' := by
    intro c hc
    rcases List.mem_append.mp hc with hc1 | hc2
    · rcases List.mem_append.mp hc1 with hs | hd
      · exact Or.inr (Or.inr (Or.inr (hS_mem neg c hs)))
      · exact Or.inl (hD c hd)
    · rcases List.mem_cons.mp hc2 with rfl | hcf
      · exact Or.inr (Or.inl rfl)
      · exact Or.inl (hf c hcf)
  have hnm_comma : ',' ∉ (if neg then ['-'] else []) ++ D ++ '.' :: frac := by
    intro hm
    rcases List.mem_append.mp hm with hc1 | hc2
    · rcases List.mem_append.mp hc1 with hs | hd
      · exact absurd (hS_mem neg ',' hs) (by decide)
      · exact (digit_ne_seps (hD ',' hd)).1 rfl
    · rcases List.mem_cons.mp hc2 with he | hcf
      · exact absurd he (by decide)
      · exact (digit_ne_seps (hf ',' hcf)).1 rfl
  unfold toNumericValue
  dsimp only
  rw [show (String.mk ((if neg then ['-'] else []) ++ D ++ '.' :: frac)).toList =
    (if neg then ['-'] else []) ++ D ++ '.' :: frac from rfl]
  rw [jsTrim_eq_self _ (class_not_ws hclass)]
  rw [if_neg (by simp : ¬((if neg then ['-'] else []) ++ D ++ '.' :: frac = []))]
  have hcc : ((if neg then ['-'] else []) ++ D ++ '.' :: frac).contains ',' = false := by
    rw [← Bool.not_eq_true]
    intro hb
    exact hnm_comma (by simpa using hb)
  rw [if_neg (fun hand => by rw [hcc] at hand; exact absurd hand.1 (by decide)),
    if_neg (by rw [hcc]; simp)]
  have hrm : removeAll ((if neg then ['-'] else []) ++ D ++ '.' :: frac) ',' =
      (if neg then ['-'] else []) ++ D ++ '.' :: frac := by
    unfold removeAll
    exact List.filter_eq_self.mpr (fun c hc => by
      simp only [bne_iff_ne, ne_eq]
      intro he
      rw [he] at hc
      exact hnm_comma hc)
  rw [hrm, cleanup_filter_eq_self _ (fun c hc => by
    rcases hclass c hc with hd | he | he | he
    · exact Or.inl hd
    · exact Or.inr (Or.inl he)
    · exact absurd (he ▸ hc) hnm_comma
    · exact Or.inr (Or.inr he))]
  exact jsNumber_signed neg D frac hD hDne hf hfne

lemma toNumericValue_brazil (neg : Bool) (g0 g1 : List Char) (gs1 : List (List Char))
    (frac : List Char)
    (hdig : ∀ g ∈ g0 :: g1 :: gs1, ∀ d ∈ g, d.isDigit = true)
    (hg0ne : g0 ≠ [])
    (hf : ∀ d ∈ frac, d.isDigit = true) (hfne : frac ≠ []) :
    toNumericValue (String.mk
      ((if neg then ['-'] else []) ++ joinSep (g0 :: g1 :: gs1) '.' ++ ',' :: frac)) =
      some (groupedValue neg (g0 :: g1 :: gs1) frac) := by
  have hflat : ∀ d ∈ (g0 :: g1 :: gs1).flatten, d.isDigit = true := by
    intro d hd
    obtain ⟨l, hl, hdl⟩ := List.mem_flatten.mp hd
    exact hdig l hl d hdl
  have hJ : ∀ c ∈ joinSep (g0 :: g1 :: gs1) '.', c.isDigit = true ∨ c = '.' := by
    intro c hc
    rcases mem_joinSep (g0 :: g1 :: gs1) '.' c hc with hm | rfl
    · exact Or.inl (hflat c hm)
    · exact Or.inr rfl
  have hclass : ∀ c ∈ (if neg then ['-'] else []) ++ joinSep (g0 :: g1 :: gs1) '.' ++
      ',' :: frac, c.isDigit = true ∨ c = '.' ∨ c = ',' ∨ c = '-' := by
    intro c hc
    rcases List.mem_append.mp hc with hc1 | hc2
    · rcases List.mem_append.mp hc1 with hs | hj
      · exact Or.inr (Or.inr (Or.inr (hS_mem neg c hs)))
      · rcases hJ c hj with hd | rfl
        · exact Or.inl hd
        · exact Or.inr (Or.inl rfl)
    · rcases List.mem_cons.mp hc2 with rfl | hcf
      · exact Or.inr (Or.inr (Or.inl rfl))
      · exact Or.inl (hf c hcf)
  have hnm_commaA : ',' ∉ (if neg then ['-'] else []) ++ joinSep (g0 :: g1 :: gs1) '.' := by
    intro hm
    rcases List.mem_append.mp hm with hs | hj
    · exact absurd (hS_mem neg ',' hs) (by decide)
    · rcases hJ ',' hj with hd | he
      · exact absurd hd (by decide)
      · exact absurd he (by decide)
  have hnm_commaF : ',' ∉ frac := fun hm => absurd (hf ',' hm) (by decide)
  have hnm_dotT : '.' ∉ ',' :: frac := by
    intro hm
    rcases List.mem_cons.mp hm with he | hcf
    · exact absurd he (by decide)
    · exact absurd (hf '.' hcf) (by decide)
  have hcont_comma : ((if neg then ['-'] else []) ++ joinSep (g0 :: g1 :: gs1) '.' ++
      ',' :: frac).contains ',' = true := by
    simp
  have hcont_dot : ((if neg then ['-'] else []) ++ joinSep (g0 :: g1 :: gs1) '.' ++
      ',' :: frac).contains '.' = true := by
    simpa using Or.inl (sep_mem_joinSep g0 g1 gs1 '.')
  have hlast_comma : lastIndexOf ((if neg then ['-'] else []) ++
      joinSep (g0 :: g1 :: gs1) '.' ++ ',' :: frac) ',' =
      (((if neg then ['-'] else []) ++ joinSep (g0 :: g1 :: gs1) '.').length : Int) :=
    lastIndexOf_append_cons_self _ frac ',' hnm_commaF
  have hlast_dot : lastIndexOf ((if neg then ['-'] else []) ++
      joinSep (g0 :: g1 :: gs1) '.' ++ ',' :: frac) '.' =
      lastIndexOf ((if neg then ['-'] else []) ++ joinSep (g0 :: g1 :: gs1) '.') '.' :=
    lastIndexOf_append_of_not_mem_right _ (',' :: frac) '.' hnm_dotT
  unfold toNumericValue
  dsimp only
  rw [show (String.mk ((if neg then ['-'] else []) ++ joinSep (g0 :: g1 :: gs1) '.' ++
    ',' :: frac)).toList = (if neg then ['-'] else []) ++ joinSep (g0 :: g1 :: gs1) '.' ++
    ',' :: frac from rfl]
  rw [jsTrim_eq_self _ (class_not_ws hclass)]
  rw [if_neg (by simp : ¬((if neg then ['-'] else []) ++ joinSep (g0 :: g1 :: gs1) '.' ++
    ',' :: frac = []))]
  rw [if_pos ⟨hcont_comma, hcont_dot⟩]
  rw [if_pos (by
    rw [hlast_comma, hlast_dot]
    have := lastIndexOf_lt_length ((if neg then ['-'] else []) ++
      joinSep (g0 :: g1 :: gs1) '.') '.'
    omega)]
  have hrm : removeAll ((if neg then ['-'] else []) ++ joinSep (g0 :: g1 :: gs1) '.' ++
      ',' :: frac) '.' =
      (if neg then ['-'] else []) ++ (g0 :: g1 :: gs1).flatten ++ ',' :: frac := by
    unfold removeAll
    rw [List.filter_append, List.filter_append]
    rw [List.filter_eq_self.mpr (fun c hc => by
      simp only [bne_iff_ne, ne_eq]
      rw [hS_mem neg c hc]
      decide)]
    rw [joinSep_filter_ne (g0 :: g1 :: gs1) '.'
      (fun g hg d hd => (digit_ne_seps (hdig g hg d hd)).2.1)]
    rw [List.filter_eq_self.mpr (fun c hc => by
      simp only [bne_iff_ne, ne_eq]
      intro he
      rw [he] at hc
      exact hnm_dotT hc)]
  rw [hrm]
  rw [replaceFirst_append_cons ((if neg then ['-'] else []) ++ (g0 :: g1 :: gs1).flatten)
    frac ',' '.' (by
      intro hm
      rcases List.mem_append.mp hm with hs | hd
      · exact absurd (hS_mem neg ',' hs) (by decide)
      · exact absurd (hflat ',' hd) (by decide))]
  rw [cleanup_filter_eq_self _ (fun c hc => by
    rcases List.mem_append.mp hc with hc1 | hc2
    · rcases List.mem_append.mp hc1 with hs | hd
      · exact Or.inr (Or.inr (hS_mem neg c hs))
      · exact Or.inl (hflat c hd)
    · rcases List.mem_cons.mp hc2 with rfl | hcf
      · exact Or.inr (Or.inl rfl)
      · exact Or.inl (hf c hcf))]
  rw [jsNumber_signed neg ((g0 :: g1 :: gs1).flatten) frac hflat
    (by
      simp only [List.flatten_cons]
      intro h0
      exact hg0ne (List.append_eq_nil.mp h0).1) hf hfne]
  rw [groupedValue_eq]

lemma toNumericValue_english (neg : Bool) (g0 g1 : List Char) (gs1 : List (List Char))
    (frac : List Char)
    (hdig : ∀ g ∈ g0 :: g1 :: gs1, ∀ d ∈ g, d.isDigit = true)
    (hg0ne : g0 ≠ [])
    (hf : ∀ d ∈ frac, d.isDigit = true) (hfne : frac ≠ []) :
    toNumericValue (String.mk
      ((if neg then ['-'] else []) ++ joinSep (g0 :: g1 :: gs1) ',' ++ '.' :: frac)) =
      some (groupedValue neg (g0 :: g1 :: gs1) frac) := by
  have hflat : ∀ d ∈ (g0 :: g1 :: gs1).flatten, d.isDigit = true := by
    intro d hd
    obtain ⟨l, hl, hdl⟩ := List.mem_flatten.mp hd
    exact hdig l hl d hdl
  have hJ : ∀ c ∈ joinSep (g0 :: g1 :: gs1) ',', c.isDigit = true ∨ c = ',' := by
    intro c hc
    rcases mem_joinSep (g0 :: g1 :: gs1) ',' c hc with hm | rfl
    · exact Or.inl (hflat c hm)
    · exact Or.inr rfl
  have hclass : ∀ c ∈ (if neg then ['-'] else []) ++ joinSep (g0 :: g1 :: gs1) ',' ++
      '.' :: frac, c.isDigit = true ∨ c = '.' ∨ c = ',' ∨ c = '-' := by
    intro c hc
    rcases List.mem_append.mp hc with hc1 | hc2
    · rcases List.mem_append.mp hc1 with hs | hj
      · exact Or.inr (Or.inr (Or.inr (hS_mem neg c hs)))
      · rcases hJ c hj with hd | rfl
        · exact Or.inl hd
        · exact Or.inr (Or.inr (Or.inl rfl))
    · rcases List.mem_cons.mp hc2 with rfl | hcf
      · exact Or.inr (Or.inl rfl)
      · exact Or.inl (hf c hcf)
  have hnm_dotF : '.' ∉ frac := fun hm => absurd (hf '.' hm) (by decide)
  have hnm_commaT : ',' ∉ '.' :: frac := by
    intro hm
    rcases List.mem_cons.mp hm with he | hcf
    · exact absurd he (by decide)
    · exact absurd (hf ',' hcf) (by decide)
  have hcont_comma : ((if neg then ['-'] else []) ++ joinSep (g0 :: g1 :: gs1) ',' ++
      '.' :: frac).contains ',' = true := by
    simpa using Or.inl (sep_mem_joinSep g0 g1 gs1 ',')
  have hcont_dot : ((if neg then ['-'] else []) ++ joinSep (g0 :: g1 :: gs1) ',' ++
      '.' :: frac).contains '.' = true := by
    simp
  have hlast_dot : lastIndexOf ((if neg then ['-'] else []) ++
      joinSep (g0 :: g1 :: gs1) ',' ++ '.' :: frac) '.' =
      (((if neg then ['-'] else []) ++ joinSep (g0 :: g1 :: gs1) ',').length : Int) :=
    lastIndexOf_append_cons_self _ frac '.' hnm_dotF
  have hlast_comma : lastIndexOf ((if neg then ['-'] else []) ++
      joinSep (g0 :: g1 :: gs1) ',' ++ '.' :: frac) ',' =
      lastIndexOf ((if neg then ['-'] else []) ++ joinSep (g0 :: g1 :: gs1) ',') ',' :=
    lastIndexOf_append_of_not_mem_right _ ('.' :: frac) ',' hnm_commaT
  unfold toNumericValue
  dsimp only
  rw [show (String.mk ((if neg then ['-'] else []) ++ joinSep (g0 :: g1 :: gs1) ',' ++
    '.' :: frac)).toList = (if neg then ['-'] else []) ++ joinSep (g0 :: g1 :: gs1) ',' ++
    '.' :: frac from rfl]
  rw [jsTrim_eq_self _ (class_not_ws hclass)]
  rw [if_neg (by simp : ¬((if neg then ['-'] else []) ++ joinSep (g0 :: g1 :: gs1) ',' ++
    '.' :: frac = []))]
  rw [if_pos ⟨hcont_comma, hcont_dot⟩]
  rw [if_neg (by
    rw [hlast_comma, hlast_dot]
    have := lastIndexOf_lt_length ((if neg then ['-'] else []) ++
      joinSep (g0 :: g1 :: gs1) ',') ','
    omega)]
  have hrm : removeAll ((if neg then ['-'] else []) ++ joinSep (g0 :: g1 :: gs1) ',' ++
      '.' :: frac) ',' =
      (if neg then ['-'] else []) ++ (g0 :: g1 :: gs1).flatten ++ '.' :: frac := by
    unfold removeAll
    rw [List.filter_append, List.filter_append]
    rw [List.filter_eq_self.mpr (fun c hc => by
      simp only [bne_iff_ne, ne_eq]
      rw [hS_mem neg c hc]
      decide)]
    rw [joinSep_filter_ne (g0 :: g1 :: gs1) ','
      (fun g hg d hd => (digit_ne_seps (hdig g hg d hd)).1)]
    rw [List.filter_eq_self.mpr (fun c hc => by
      simp only [bne_iff_ne, ne_eq]
      intro he
      rw [he] at hc
      exact hnm_commaT hc)]
  rw [hrm]
  rw [cleanup_filter_eq_self _ (fun c hc => by
    rcases List.mem_append.mp hc with hc1 | hc2
    · rcases List.mem_append.mp hc1 with hs | hd
      · exact Or.inr (Or.inr (hS_mem neg c hs))
      · exact Or.inl (hflat c hd)
    · rcases List.mem_cons.mp hc2 with rfl | hcf
      · exact Or.inr (Or.inl rfl)
      · exact Or.inl (hf c hcf))]
  rw [jsNumber_signed neg ((g0 :: g1 :: gs1).flatten) frac hflat
    (by
      simp only [List.flatten_cons]
      intro h0
      exact hg0ne (List.append_eq_nil.mp h0).1) hf hfne]
  rw [groupedValue_eq]

/-- Claim C3 (amended): when a fractional part is present and the integer
part has at least two digit groups, toNumericValue agrees exactly with the
represented value for the dot-thousands/comma-decimal rendering, the
comma-thousands/dot-decimal rendering, and the ungrouped dot-decimal
rendering. -/
theorem c3_amended_theorem (neg : Bool) (groups : List (List Char)) (frac : List Char)
    (hg : groupsValidB groups = true)
    (hf : ∀ d ∈ frac, d.isDigit = true)
    (hfne : frac ≠ [])
    (h2 : 2 ≤ groups.length) :
    toNumericValue (String.mk (renderGrouped neg groups frac '.' ',')) =
      some (groupedValue neg groups frac) ∧
    toNumericValue (String.mk (renderGrouped neg groups frac ',' '.')) =
      some (groupedValue neg groups frac) ∧
    toNumericValue (String.mk (renderGrouped neg [groups.flatten] frac ',' '.')) =
      some (groupedValue neg groups frac) := by
  cases groups with
  | nil => simp at h2
  | cons g0 gs0 =>
    cases gs0 with
    | nil => simp at h2
    | cons g1 gs1 =>
      simp only [groupsValidB, Bool.and_eq_true, decide_eq_true_eq,
        List.all_eq_true] at hg
      obtain ⟨⟨⟨h1, h3⟩, hd0⟩, htail⟩ := hg
      have hdig : ∀ g ∈ g0 :: g1 :: gs1, ∀ d ∈ g, d.isDigit = true := by
        intro g hgm d hd
        rcases List.mem_cons.mp hgm with rfl | hm
        · exact hd0 d hd
        · exact (htail g hm).2 d hd
      have hg0ne : g0 ≠ [] := by
        intro h0
        rw [h0] at h1
        simp at h1
      refine ⟨?_, ?_, ?_⟩
      · rw [show renderGrouped neg (g0 :: g1 :: gs1) frac '.' ',' =
          (if neg then ['-'] else []) ++ joinSep (g0 :: g1 :: gs1) '.' ++ ',' :: frac from by
            unfold renderGrouped
            rw [if_neg hfne]]
        exact toNumericValue_brazil neg g0 g1 gs1 frac hdig hg0ne hf hfne
      · rw [show renderGrouped neg (g0 :: g1 :: gs1) frac ',' '.' =
          (if neg then ['-'] else []) ++ joinSep (g0 :: g1 :: gs1) ',' ++ '.' :: frac from by
            unfold renderGrouped
            rw [if_neg hfne]]
        exact toNumericValue_english neg g0 g1 gs1 frac hdig hg0ne hf hfne
      · rw [show renderGrouped neg [(g0 :: g1 :: gs1).flatten] frac ',' '.' =
          (if neg then ['-'] else []) ++ (g0 :: g1 :: gs1).flatten ++ '.' :: frac from by
            unfold renderGrouped
            rw [if_neg hfne]
            rfl]
        have hflat : ∀ d ∈ (g0 :: g1 :: gs1).flatten, d.isDigit = true := by
          intro d hd
          obtain ⟨l, hl, hdl⟩ := List.mem_flatten.mp hd
          exact hdig l hl d hdl
        rw [toNumericValue_plain neg ((g0 :: g1 :: gs1).flatten) frac hflat
          (by
            simp only [List.flatten_cons]
            intro h0
            exact hg0ne (List.append_eq_nil.mp h0).1) hf hfne]
        rw [groupedValue_eq]

/-- Witness for C3 (amended): "1.234,56", "1,234.56" and "1234.56" all parse
to 1234.56. -/
theorem c3_amended_witness :
    groupsValidB [['1'], ['2', '3', '4']] = true ∧
    (∀ d ∈ ['5', '6'], d.isDigit = true) ∧
    (['5', '6'] : List Char) ≠ [] ∧
    2 ≤ ([['1'], ['2', '3', '4']] : List (List Char)).length ∧
    toNumericValue "1.234,56" = some (mkRat 30864 25) ∧
    toNumericValue "1,234.56" = some (mkRat 30864 25) ∧
    toNumericValue "1234.56" = some (mkRat 30864 25) := by
  have h := c3_amended_theorem false [['1'], ['2', '3', '4']] ['5', '6'] (by decide)
    (by decide) (by decide) (by decide)
  refine ⟨by decide, by decide, by decide, by decide, ?_, ?_, ?_⟩
  · have h1 := h.1
    rw [show String.mk (renderGrouped false [['1'], ['2', '3', '4']] ['5', '6'] '.' ',') =
      "1.234,56" from rfl] at h1
    rw [h1]
    rw [show groupedValue false [['1'], ['2', '3', '4']] ['5', '6'] = mkRat 30864 25 from by
      decide]
  · have h1 := h.2.1
    rw [show String.mk (renderGrouped false [['1'], ['2', '3', '4']] ['5', '6'] ',' '.') =
      "1,234.56" from rfl] at h1
    rw [h1]
    rw [show groupedValue false [['1'], ['2', '3', '4']] ['5', '6'] = mkRat 30864 25 from by
      decide]
  · have h1 := h.2.2
    rw [show String.mk (renderGrouped false
      [([['1'], ['2', '3', '4']] : List (List Char)).flatten] ['5', '6'] ',' '.') =
      "1234.56" from rfl] at h1
    rw [h1]
    rw [show groupedValue false [['1'], ['2', '3', '4']] ['5', '6'] = mkRat 30864 25 from by
      decide]

/-- Claim C3 counterexample: "1,234" and "1234" both render the value 1234
under the comma-thousands convention, yet toNumericValue parses "1,234" as
1.234 (a lone comma is always taken as the decimal separator) — a
disagreement far beyond 1e-6; likewise "1.234.567" renders 1234567 under the
dot-thousands convention but parses to NaN. -/
theorem c3_counterexample :
    groupsValidB [['1'], ['2', '3', '4']] = true ∧
    renderGrouped false [['1'], ['2', '3', '4']] [] ',' '.' = "1,234".toList ∧
    groupedValue false [['1'], ['2', '3', '4']] [] = mkRat 1234 1 ∧
    groupsValidB [['1', '2', '3', '4']] = true ∧
    renderGrouped false [['1', '2', '3', '4']] [] ',' '.' = "1234".toList ∧
    groupedValue false [['1', '2', '3', '4']] [] = mkRat 1234 1 ∧
    toNumericValue "1,234" = some (mkRat 617 500) ∧
    toNumericValue "1234" = some (mkRat 1234 1) ∧
    ¬((mkRat 1234 1 : ℚ) - mkRat 617 500 ≤ mkRat 1 1000000) ∧
    groupsValidB [['1'], ['2', '3', '4'], ['5', '6', '7']] = true ∧
    renderGrouped false [['1'], ['2', '3', '4'], ['5', '6', '7']] [] '.' ',' =
      "1.234.567".toList ∧
    groupedValue false [['1'], ['2', '3', '4'], ['5', '6', '7']] [] = mkRat 1234567 1 ∧
    toNumericValue "1.234.567" = none := by
  refine ⟨by decide, by decide, by decide, by decide, by decide, by decide, by decide,
    by decide, ?_, by decide, by decide, by decide, by decide⟩
  norm_num [Rat.mkRat_eq_div]
